import Mathlib

/-! Parcel core: symbol tables, asset identity and the generate memoizer.

A shallow embedding of `packages/core/core/src/public/Symbols.js` and
`packages/core/core/src/assetUtils.js`.

* A JavaScript `Map` with string keys is an association list in insertion
  order (`JSMap`); `Map.prototype.set` overwrites in place or appends.
* The symbol views hold a reference to a record and mutate it in place; here
  every operation takes the record and returns the record afterwards.
* Types that are only imported by the two files (`SourceLocation`,
  `Environment`, ...) and the helpers imported from other packages
  (`md5FromString`, `getEnvironmentHash`, ...) are parameters.
-/

namespace Parcel

/-! ## JavaScript values -/

/-- Symbol names (`Symbol` of `@parcel/types`) are strings. -/
abbrev ISymbol := String

/-- An optional JavaScript value: `undefined` (not supplied), `null`, or a value. -/
inductive Nullable (α : Type) where
  | undefined : Nullable α
  | null : Nullable α
  | val (a : α) : Nullable α
  deriving DecidableEq, Repr

namespace Nullable

variable {α : Type}

/-- The test `x == null`, true for both `null` and `undefined`. -/
def isNullish : Nullable α → Bool
  | undefined => true
  | null => true
  | val _ => false

/-- The operator `x ?? d`. -/
def orDefault (x : Nullable α) (d : α) : α :=
  match x with
  | val a => a
  | _ => d

end Nullable

/-- An insertion-ordered JavaScript `Map` keyed by symbol names, oldest entry first. -/
abbrev JSMap (V : Type) := List (ISymbol × V)

namespace JSMap

variable {V : Type}

/-- The call `Map.prototype.get`. -/
def get : JSMap V → ISymbol → Option V
  | [], _ => none
  | (k', v) :: rest, k => if k' = k then some v else get rest k

/-- The call `Map.prototype.has`. -/
def has (m : JSMap V) (k : ISymbol) : Bool := (get m k).isSome

/-- The call `Map.prototype.set`: an existing key keeps its position, a new key goes last. -/
def set : JSMap V → ISymbol → V → JSMap V
  | [], k, v => [(k, v)]
  | (k', v') :: rest, k, v => if k' = k then (k, v) :: rest else (k', v') :: set rest k v

/-- The call `Map.prototype.keys`. -/
def keys (m : JSMap V) : List ISymbol := m.map Prod.fst

/-- The call `Map.prototype.values`. -/
def values (m : JSMap V) : List V := m.map Prod.snd

/-- The call `Map.prototype.clear`. -/
def clear (_ : JSMap V) : JSMap V := []

end JSMap

/-! ## Dependency symbols (`MutableDependencySymbols`) -/

/-- A dependency symbol entry `{local, loc, isWeak}`; the field `local` is written
`localName`. -/
structure DepSymbol (Loc : Type) where
  localName : ISymbol
  loc : Nullable Loc
  isWeak : Bool
  deriving DecidableEq, Repr

/-- The part of a `Dependency` record the view touches: `symbols: ?Map<...>`. -/
structure Dependency (Loc : Type) where
  symbols : Nullable (JSMap (DepSymbol Loc))
  deriving DecidableEq, Repr

namespace MutableDependencySymbols

variable {Loc : Type}

/-- The method `ensure()`. -/
def ensure (d : Dependency Loc) : Dependency Loc :=
  match d.symbols with
  | .val _ => d
  | _ => { d with symbols := .val [] }

/-- The method `set(exportSymbol, local, loc, isWeak)`. -/
def set (d : Dependency Loc) (exportSymbol localName : ISymbol) (loc : Nullable Loc)
    (isWeak : Nullable Bool) : Dependency Loc :=
  let symbols : JSMap (DepSymbol Loc) :=
    match d.symbols with
    | .val m => m
    | _ => []
  { d with
    symbols := .val (JSMap.set symbols exportSymbol
      { localName := localName
        loc := loc
        isWeak :=
          (match JSMap.get symbols exportSymbol with
            | some s => s.isWeak
            | none => true) && (isWeak.orDefault false) }) }

/-- The method `get(exportSymbol)`: `this.#value.symbols?.get(exportSymbol)`. -/
def get (d : Dependency Loc) (exportSymbol : ISymbol) : Option (DepSymbol Loc) :=
  match d.symbols with
  | .val m => JSMap.get m exportSymbol
  | _ => none

/-- The method `hasExportSymbol(exportSymbol)`. -/
def hasExportSymbol (d : Dependency Loc) (exportSymbol : ISymbol) : Bool :=
  match d.symbols with
  | .val m => JSMap.has m exportSymbol
  | _ => false

/-- The method `hasLocalSymbol(local)`: a linear scan over the values. -/
def hasLocalSymbol (d : Dependency Loc) (localName : ISymbol) : Bool :=
  match d.symbols with
  | .val m => (JSMap.values m).any (fun s => decide (localName = s.localName))
  | _ => false

/-- The elements produced by `[Symbol.iterator]()`. -/
def iterate (d : Dependency Loc) : List (ISymbol × DepSymbol Loc) :=
  match d.symbols with
  | .val m => m
  | _ => []

/-- The elements produced by `exportSymbols()`. -/
def exportSymbols (d : Dependency Loc) : List ISymbol :=
  match d.symbols with
  | .val m => JSMap.keys m
  | _ => []

/-- The getter `isCleared`. -/
def isCleared (d : Dependency Loc) : Bool :=
  d.symbols.isNullish

end MutableDependencySymbols

/-- One call on a `MutableDependencySymbols` view. -/
inductive DepOp (Loc : Type) where
  | ensure : DepOp Loc
  | set (exportSymbol localName : ISymbol) (loc : Nullable Loc) (isWeak : Nullable Bool) :
      DepOp Loc
  | get (exportSymbol : ISymbol) : DepOp Loc
  | hasExportSymbol (exportSymbol : ISymbol) : DepOp Loc
  | hasLocalSymbol (localName : ISymbol) : DepOp Loc
  | iterate : DepOp Loc
  | exportSymbols : DepOp Loc
  | isCleared : DepOp Loc
  deriving DecidableEq, Repr

/-- What a call returns to its caller. -/
inductive DepResult (Loc : Type) where
  | unit : DepResult Loc
  | entry (s : Option (DepSymbol Loc)) : DepResult Loc
  | bool (b : Bool) : DepResult Loc
  | entries (xs : List (ISymbol × DepSymbol Loc)) : DepResult Loc
  | names (xs : List ISymbol) : DepResult Loc
  deriving DecidableEq, Repr

namespace DepOp

variable {Loc : Type}

/-- Perform one call: the value returned and the record afterwards. -/
def exec (d : Dependency Loc) : DepOp Loc → DepResult Loc × Dependency Loc
  | .ensure => (.unit, MutableDependencySymbols.ensure d)
  | .set e l loc w => (.unit, MutableDependencySymbols.set d e l loc w)
  | .get e => (.entry (MutableDependencySymbols.get d e), d)
  | .hasExportSymbol e => (.bool (MutableDependencySymbols.hasExportSymbol d e), d)
  | .hasLocalSymbol l => (.bool (MutableDependencySymbols.hasLocalSymbol d l), d)
  | .iterate => (.entries (MutableDependencySymbols.iterate d), d)
  | .exportSymbols => (.names (MutableDependencySymbols.exportSymbols d), d)
  | .isCleared => (.bool (MutableDependencySymbols.isCleared d), d)

/-- The record after a finite sequence of calls, performed left to right. -/
def run (d : Dependency Loc) (ops : List (DepOp Loc)) : Dependency Loc :=
  ops.foldl (fun acc op => (exec acc op).2) d

end DepOp

/-! ## Asset identity (`assetUtils.js`: `generateIdBase`, `createAsset`) -/

/-- An asset symbol entry `{local, loc}`; the field `local` is written `localName`. -/
structure AssetSymbol (Loc : Type) where
  localName : ISymbol
  loc : Nullable Loc
  deriving DecidableEq, Repr

/-- The types and helper functions that `assetUtils.js` imports from other modules
(`@parcel/types`, `@parcel/utils`, `./Environment`, `path`, `./types`), together with the
fresh empty values `{}` and `new Map()` of the imported types. -/
structure Imports where
  SourceLocation : Type
  Environment : Type
  QueryParameters : Type
  ASTGenerator : Type
  Dependencies : Type
  IncludedFiles : Type
  Meta : Type
  Stats : Type
  emptyQuery : QueryParameters
  emptyDependencies : Dependencies
  emptyIncludedFiles : IncludedFiles
  emptyMeta : Meta
  md5FromString : String → String
  getEnvironmentHash : Environment → String
  normalizeSeparators : String → String
  relative : String → String → String

/-- The field of `ParcelOptions` read by `generateIdBase`. -/
structure ParcelOptions where
  projectRoot : String
  deriving DecidableEq, Repr

/-- The function `generateIdBase({code, options, uniqueKey, filePath, hash, isSource})`. -/
def generateIdBase (X : Imports) (code : Nullable String) (options : ParcelOptions)
    (uniqueKey : Nullable String) (filePath : String) (hash : String) (isSource : Bool) :
    String :=
  match code with
  | .val _ => hash
  | _ =>
    match uniqueKey with
    | .val u => u ++ ":" ++ (if !isSource then hash else "")
    | _ => X.normalizeSeparators (X.relative options.projectRoot filePath)

/-- The type `AssetOptions`. -/
structure AssetOptions (X : Imports) where
  id : Nullable String
  committed : Nullable Bool
  hash : Nullable String
  idBase : Nullable String
  filePath : String
  query : Nullable X.QueryParameters
  type : String
  contentKey : Nullable String
  mapKey : Nullable String
  astKey : Nullable String
  astGenerator : Nullable X.ASTGenerator
  dependencies : Nullable X.Dependencies
  includedFiles : Nullable X.IncludedFiles
  isIsolated : Nullable Bool
  isInline : Nullable Bool
  isSplittable : Nullable Bool
  isSource : Bool
  env : X.Environment
  meta : Nullable X.Meta
  outputHash : Nullable String
  pipeline : Nullable String
  stats : X.Stats
  symbols : Nullable (JSMap (AssetSymbol X.SourceLocation))
  sideEffects : Nullable Bool
  uniqueKey : Nullable String
  plugin : Nullable String
  configPath : Nullable String
  configKeyPath : Nullable String

/-- The record built by `createAsset` (the type `Asset` of `./types`). -/
structure Asset (X : Imports) where
  id : String
  committed : Bool
  hash : Nullable String
  filePath : String
  query : X.QueryParameters
  isIsolated : Bool
  isInline : Bool
  isSplittable : Nullable Bool
  type : String
  contentKey : Nullable String
  mapKey : Nullable String
  astKey : Nullable String
  astGenerator : Nullable X.ASTGenerator
  dependencies : X.Dependencies
  includedFiles : X.IncludedFiles
  isSource : Bool
  outputHash : Nullable String
  pipeline : Nullable String
  env : X.Environment
  meta : X.Meta
  stats : X.Stats
  symbols : Nullable (JSMap (AssetSymbol X.SourceLocation))
  sideEffects : Bool
  uniqueKey : String
  plugin : Nullable String
  configPath : Nullable String
  configKeyPath : Nullable String

/-- The helper `nullthrows` of the package of that name. -/
def nullthrows {α : Type} : Nullable α → Except String α
  | .val a => .ok a
  | .null => .error "Got unexpected null"
  | .undefined => .error "Got unexpected undefined"

/-- The operator `x || d` on an optional string: the empty string is falsy. -/
def strOr (x : Nullable String) (d : String) : String :=
  match x with
  | .val s => if s = "" then d else s
  | _ => d

/-- The operator `x || d` on an optional object: every object is truthy. -/
def objOr {α : Type} (x : Nullable α) (d : α) : α :=
  match x with
  | .val a => a
  | _ => d

/-- The function `createAsset(options)`; a thrown `Error` is `Except.error` with its message. -/
def createAsset (X : Imports) (options : AssetOptions X) : Except String (Asset X) :=
  if options.idBase.isNullish && options.id.isNullish then
    .error "At least one of id and idBase need to be specified"
  else
    let uniqueKey := strOr options.uniqueKey ""
    let id : Except String String :=
      match options.id with
      | .val i => .ok i
      | _ =>
        match nullthrows options.idBase with
        | .error e => .error e
        | .ok idBase =>
          .ok (X.md5FromString
            (idBase ++ ":" ++ options.type ++ ":" ++ X.getEnvironmentHash options.env ++ ":"
              ++ uniqueKey ++ ":" ++ options.pipeline.orDefault ""))
    match id with
    | .error e => .error e
    | .ok id =>
      .ok
        { id := id
          committed := options.committed.orDefault false
          hash := options.hash
          filePath := options.filePath
          query := objOr options.query X.emptyQuery
          isIsolated := options.isIsolated.orDefault false
          isInline := options.isInline.orDefault false
          isSplittable := options.isSplittable
          type := options.type
          contentKey := options.contentKey
          mapKey := options.mapKey
          astKey := options.astKey
          astGenerator := options.astGenerator
          dependencies := objOr options.dependencies X.emptyDependencies
          includedFiles := objOr options.includedFiles X.emptyIncludedFiles
          isSource := options.isSource
          outputHash := options.outputHash
          pipeline := options.pipeline
          env := options.env
          meta := objOr options.meta X.emptyMeta
          stats := options.stats
          symbols :=
            match options.symbols with
            | .val m => .val m
            | .null => .null
            | .undefined => .val []
          sideEffects := options.sideEffects.orDefault true
          uniqueKey := uniqueKey
          plugin := options.plugin
          configPath := options.configPath
          configKeyPath := options.configKeyPath }

/-- A concrete choice of the imported types and helpers, used to evaluate the definitions on
examples: every imported type is `String`, the two hash functions are the identity (hence
collision-free), `normalizeSeparators` turns each backslash into a slash and `relative`
drops the root and the separator after it from a path below the root. -/
def Imports.sample : Imports where
  SourceLocation := String
  Environment := String
  QueryParameters := String
  ASTGenerator := String
  Dependencies := String
  IncludedFiles := String
  Meta := String
  Stats := String
  emptyQuery := ""
  emptyDependencies := ""
  emptyIncludedFiles := ""
  emptyMeta := ""
  md5FromString := fun s => s
  getEnvironmentHash := fun e => e
  normalizeSeparators := fun s => s.map (fun c => if c = Char.ofNat 92 then Char.ofNat 47 else c)
  relative := fun root file => file.drop (root.length + 1)

/-- Options in which only the required fields are supplied. -/
def AssetOptions.minimal (filePath type env : String) (isSource : Bool) :
    AssetOptions Imports.sample where
  id := .undefined
  committed := .undefined
  hash := .undefined
  idBase := .undefined
  filePath := filePath
  query := .undefined
  type := type
  contentKey := .undefined
  mapKey := .undefined
  astKey := .undefined
  astGenerator := .undefined
  dependencies := .undefined
  includedFiles := .undefined
  isIsolated := .undefined
  isInline := .undefined
  isSplittable := .undefined
  isSource := isSource
  env := env
  meta := .undefined
  outputHash := .undefined
  pipeline := .undefined
  stats := ""
  symbols := .undefined
  sideEffects := .undefined
  uniqueKey := .undefined
  plugin := .undefined
  configPath := .undefined
  configKeyPath := .undefined

/-! ## The generate memoizer (`assetUtils.js`: `generateFromAST`, `_generateFromAST`)

An `async` function runs up to its first `await` when it is called and is resumed once per
awaited value. A promise is a slot of the promise heap holding the stage its computation has
reached; the calls made on the collaborators are appended to a log. -/

/-- The types and pure helpers used by generation that come from other modules. -/
structure GenImports where
  AST : Type
  Buffer : Type
  Readable : Type
  SourceMap : Type
  toBuffer : SourceMap → Buffer
  getStream : String → Readable

/-- The call `map?.toBuffer()`. -/
def GenImports.mapBuffer (G : GenImports) (map : Nullable G.SourceMap) : Nullable G.Buffer :=
  match map with
  | .val m => .val (G.toBuffer m)
  | _ => .undefined

/-- The type `Blob = string | Buffer | Readable`. -/
inductive Blob (G : GenImports) where
  | text (s : String) : Blob G
  | buffer (b : G.Buffer) : Blob G
  | readable (r : G.Readable) : Blob G

/-- The type `GenerateOutput`, `{content, map}`. -/
structure GenerateOutput (G : GenImports) where
  content : Blob G
  map : Nullable G.SourceMap

/-- A loaded transformer plugin: `generate` is `none` when the plugin has no `generate`
method, and otherwise holds what awaiting `plugin.generate(...)` produces. -/
structure Plugin (G : GenImports) where
  generate : Option (Except String (GenerateOutput G))

/-- The fields of `asset.value` read by generation; `ref` is the identity of the object,
the key of the `WeakMap`. -/
structure AssetValue where
  ref : Nat
  plugin : Nullable String
  configPath : Nullable String
  configKeyPath : Nullable String
  contentKey : Nullable String
  mapKey : Nullable String
  deriving DecidableEq, Repr

/-- A `CommittedAsset | UncommittedAsset` together with what its collaborators answer:
`getAST` for `await asset.getAST()`, `loadPlugin` for `await loadPlugin(...)`, `setStream`
and `setBlob` for the two store writes of `asset.options.cache`. -/
structure AssetHandle (G : GenImports) where
  value : AssetValue
  getAST : Except String (Nullable G.AST)
  loadPlugin : String → String → String → Except String (Plugin G)
  setStream : String → Except String Unit
  setBlob : String → Except String Unit

/-- A call on a collaborator, tagged with the `ref` of the asset it is made for. -/
inductive Effect where
  | start (ref promise : Nat) : Effect
  | getAST (ref : Nat) : Effect
  | loadPlugin (ref : Nat) (pluginName configPath configKeyPath : String) : Effect
  | generate (ref : Nat) (pluginName : String) : Effect
  | setStream (ref : Nat) (key : String) : Effect
  | setBlob (ref : Nat) (key : String) : Effect
  deriving DecidableEq, Repr

/-- Where a run of `_generateFromAST` stands: suspended at one of its four `await`s, or
settled. -/
inductive Stage (G : GenImports) where
  | awaitAST (asset : AssetHandle G) : Stage G
  | awaitPlugin (asset : AssetHandle G) (ast : G.AST) (pluginName configPath configKeyPath : String) :
      Stage G
  | awaitGenerate (asset : AssetHandle G) (result : Except String (GenerateOutput G)) : Stage G
  | awaitWrites (asset : AssetHandle G) (out : GenerateOutput G) (contentKey : String)
      (mapKey : Option String) : Stage G
  | fulfilled (out : GenerateOutput G) : Stage G
  | rejected (message : String) : Stage G

namespace Stage

variable {G : GenImports}

/-- Lines 157-170: the awaited AST arrives; the plugin is looked up. -/
def afterAST (asset : AssetHandle G) : Stage G × List Effect :=
  match asset.getAST with
  | .error e => (rejected e, [])
  | .ok (.val ast) =>
    match nullthrows asset.value.plugin with
    | .error e => (rejected e, [])
    | .ok pluginName =>
      match nullthrows asset.value.configPath with
      | .error e => (rejected e, [])
      | .ok configPath =>
        match nullthrows asset.value.configKeyPath with
        | .error e => (rejected e, [])
        | .ok configKeyPath =>
          (awaitPlugin asset ast pluginName configPath configKeyPath,
            [Effect.loadPlugin asset.value.ref pluginName configPath configKeyPath])
  | .ok _ => (rejected "Asset has no AST", [])

/-- Lines 163-180: the awaited plugin arrives; its `generate` is invoked. -/
def afterPlugin (asset : AssetHandle G) (pluginName configPath configKeyPath : String) :
    Stage G × List Effect :=
  match asset.loadPlugin pluginName configPath configKeyPath with
  | .error e => (rejected e, [])
  | .ok plugin =>
    match plugin.generate with
    | none => (rejected (pluginName ++ " does not have a generate method"), [])
    | some result => (awaitGenerate asset result, [Effect.generate asset.value.ref pluginName])

/-- Lines 175-191: the awaited `{content, map}` arrives; the store writes are issued, the
elements of the array given to `Promise.all` being evaluated in order. -/
def afterGenerate (asset : AssetHandle G) (result : Except String (GenerateOutput G)) :
    Stage G × List Effect :=
  match result with
  | .error e => (rejected e, [])
  | .ok out =>
    match nullthrows asset.value.contentKey with
    | .error e => (rejected e, [])
    | .ok contentKey =>
      match G.mapBuffer out.map with
      | .val _ =>
        match nullthrows asset.value.mapKey with
        | .error e => (rejected e, [Effect.setStream asset.value.ref contentKey])
        | .ok mapKey =>
          (awaitWrites asset out contentKey (some mapKey),
            [Effect.setStream asset.value.ref contentKey, Effect.setBlob asset.value.ref mapKey])
      | _ => (awaitWrites asset out contentKey none, [Effect.setStream asset.value.ref contentKey])

/-- Lines 184-199: `Promise.all` settles; the result is built. -/
def afterWrites (asset : AssetHandle G) (out : GenerateOutput G) (contentKey : String)
    (mapKey : Option String) : Stage G × List Effect :=
  match asset.setStream contentKey with
  | .error e => (rejected e, [])
  | .ok _ =>
    let blobWrite : Except String Unit :=
      match mapKey with
      | some k => asset.setBlob k
      | none => .ok ()
    match blobWrite with
    | .error e => (rejected e, [])
    | .ok _ =>
      match out.content with
      | .readable _ =>
        match nullthrows asset.value.contentKey with
        | .error e => (rejected e, [])
        | .ok key => (fulfilled { content := .readable (G.getStream key), map := out.map }, [])
      | content => (fulfilled { content := content, map := out.map }, [])

/-- Resume a computation by one `await`: the stage it reaches and the calls it makes on
the way. A settled promise stays as it is. -/
def resume : Stage G → Stage G × List Effect
  | awaitAST asset => afterAST asset
  | awaitPlugin asset _ pluginName configPath configKeyPath =>
    afterPlugin asset pluginName configPath configKeyPath
  | awaitGenerate asset result => afterGenerate asset result
  | awaitWrites asset out contentKey mapKey => afterWrites asset out contentKey mapKey
  | fulfilled out => (fulfilled out, [])
  | rejected message => (rejected message, [])

/-- The error a promise has failed with, if it has settled with a failure. -/
def rejection : Stage G → Option String
  | rejected message => some message
  | _ => none

/-- The computation is for the asset `ref` and has not yet reached its call of
`plugin.generate`. -/
def beforeGenerate (ref : Nat) : Stage G → Bool
  | awaitAST asset => decide (asset.value.ref = ref)
  | awaitPlugin asset _ _ _ _ => decide (asset.value.ref = ref)
  | _ => false

/-- The computation is for the asset `ref` and has not yet reached its store writes. -/
def beforeWrites (ref : Nat) : Stage G → Bool
  | awaitAST asset => decide (asset.value.ref = ref)
  | awaitPlugin asset _ _ _ _ => decide (asset.value.ref = ref)
  | awaitGenerate asset _ => decide (asset.value.ref = ref)
  | _ => false

end Stage

namespace Effect

/-- A run of `_generateFromAST` was started for the asset `ref`. -/
def isStart (ref : Nat) : Effect → Bool
  | start r _ => decide (r = ref)
  | _ => false

/-- The plugin's `generate` was invoked for the asset `ref`. -/
def isGenerate (ref : Nat) : Effect → Bool
  | generate r _ => decide (r = ref)
  | _ => false

/-- The store write `setStream` was issued for the asset `ref`. -/
def isSetStream (ref : Nat) : Effect → Bool
  | setStream r _ => decide (r = ref)
  | _ => false

/-- The store write `setBlob` was issued for the asset `ref`. -/
def isSetBlob (ref : Nat) : Effect → Bool
  | setBlob r _ => decide (r = ref)
  | _ => false

end Effect

/-- A `WeakMap` keyed by object identity. -/
abbrev WeakMap (V : Type) := List (Nat × V)

namespace WeakMap

variable {V : Type}

/-- The call `WeakMap.prototype.get`. -/
def get : WeakMap V → Nat → Option V
  | [], _ => none
  | (k', v) :: rest, k => if k' = k then some v else get rest k

/-- The call `WeakMap.prototype.set`. -/
def set : WeakMap V → Nat → V → WeakMap V
  | [], k, v => [(k, v)]
  | (k', v') :: rest, k, v => if k' = k then (k, v) :: rest else (k', v') :: set rest k v

end WeakMap

/-- The state of the module: the `WeakMap` `generateResults` from `asset.value` to its
promise, the promise heap, and the log of calls made so far, oldest first. -/
structure GenState (G : GenImports) where
  generateResults : WeakMap Nat
  promises : List (Stage G)
  log : List Effect

/-- The state when the module is loaded. -/
def GenState.init (G : GenImports) : GenState G where
  generateResults := []
  promises := []
  log := []

/-- The call `_generateFromAST(asset)` up to its first `await`: `asset.getAST()` is called
and a new pending promise is returned. -/
def _generateFromAST {G : GenImports} (s : GenState G) (asset : AssetHandle G) :
    Nat × GenState G :=
  (s.promises.length,
    { s with
      promises := s.promises ++ [Stage.awaitAST asset]
      log := s.log ++
        [Effect.start asset.value.ref s.promises.length, Effect.getAST asset.value.ref] })

/-- The function `generateFromAST(asset)`: the promise returned and the state afterwards. -/
def generateFromAST {G : GenImports} (s : GenState G) (asset : AssetHandle G) :
    Nat × GenState G :=
  match WeakMap.get s.generateResults asset.value.ref with
  | some output => (output, s)
  | none =>
    let r := _generateFromAST s asset
    (r.1, { r.2 with generateResults := WeakMap.set r.2.generateResults asset.value.ref r.1 })

/-- What can happen next: a caller calls `generateFromAST`, or the event loop resumes the
computation behind a promise. -/
inductive Event (G : GenImports) where
  | call (asset : AssetHandle G) : Event G
  | resume (promise : Nat) : Event G

/-- The asset on which an event calls `generateFromAST`, if it is a call. -/
def Event.callRef {G : GenImports} : Event G → Option Nat
  | .call asset => some asset.value.ref
  | .resume _ => none

/-- Resume the computation behind a promise by one `await`. -/
def resumePromise {G : GenImports} (s : GenState G) (promise : Nat) : GenState G :=
  match s.promises[promise]? with
  | none => s
  | some stage =>
    { s with
      promises := s.promises.set promise stage.resume.1
      log := s.log ++ stage.resume.2 }

/-- One event: the state afterwards and, for a call, the asset and the promise returned. -/
def step {G : GenImports} (s : GenState G) : Event G → Option (Nat × Nat) × GenState G
  | .call asset => (some (asset.value.ref, (generateFromAST s asset).1), (generateFromAST s asset).2)
  | .resume promise => (none, resumePromise s promise)

/-- A trace of events: the state afterwards and, per call in order, the asset and the
promise it was given. -/
def runEvents {G : GenImports} : GenState G → List (Event G) → List (Nat × Nat) × GenState G
  | s, [] => ([], s)
  | s, ev :: rest =>
    match (step s ev).1 with
    | some r => (r :: (runEvents (step s ev).2 rest).1, (runEvents (step s ev).2 rest).2)
    | none => runEvents (step s ev).2 rest

/-- A concrete choice of the imported types, used to evaluate the definitions on examples. -/
def GenImports.sample : GenImports where
  AST := String
  Buffer := String
  Readable := String
  SourceMap := String
  toBuffer := fun m => m
  getStream := fun key => key

/-- An asset of the sample world with all provenance fields set; its collaborators are
given by the arguments and both store writes succeed. -/
def AssetHandle.sample (ref : Nat) (ast : Except String (Nullable String))
    (generate : Option (Except String (GenerateOutput GenImports.sample))) :
    AssetHandle GenImports.sample where
  value :=
    { ref := ref
      plugin := .val "transformer-js"
      configPath := .val "/app/.parcelrc"
      configKeyPath := .val "/transformers/0"
      contentKey := .val "content"
      mapKey := .val "map" }
  getAST := ast
  loadPlugin := fun _ _ _ => .ok { generate := generate }
  setStream := fun _ => .ok ()
  setBlob := fun _ => .ok ()

/-- The bookkeeping of the memoizer for the asset `ref`: a computation has been started for
it exactly when it has a promise in `generateResults`, and the calls of `generate`,
`setStream` and `setBlob` made for it, together with the computations for it that have not
yet reached them, number at most the computations started for it. -/
def GenInv {G : GenImports} (s : GenState G) (ref : Nat) : Prop :=
  s.log.countP (Effect.isStart ref) =
    (if (WeakMap.get s.generateResults ref).isSome then 1 else 0) ∧
  s.promises.countP (Stage.beforeGenerate ref) + s.log.countP (Effect.isGenerate ref) ≤
    s.log.countP (Effect.isStart ref) ∧
  s.promises.countP (Stage.beforeWrites ref) + s.log.countP (Effect.isSetStream ref) ≤
    s.log.countP (Effect.isStart ref) ∧
  s.promises.countP (Stage.beforeWrites ref) + s.log.countP (Effect.isSetBlob ref) ≤
    s.log.countP (Effect.isStart ref)

/-- The asset a pending computation runs for; a settled promise has none. -/
def Stage.owner {G : GenImports} : Stage G → Option (AssetHandle G)
  | .awaitAST asset => some asset
  | .awaitPlugin asset _ _ _ _ => some asset
  | .awaitGenerate asset _ => some asset
  | .awaitWrites asset _ _ _ => some asset
  | .fulfilled _ => none
  | .rejected _ => none

/-- The calls logged for the asset `ref` are exactly those that a computation for it makes
before reaching the given stage: none of `generate`, `setStream`, `setBlob` before the
plugin is invoked; one `generate` while its result is awaited; one `generate`, one
`setStream` and, exactly when the output has a map, one `setBlob` while the writes are
awaited and once the promise is fulfilled. A rejected promise may have failed anywhere. -/
def Stage.accounted {G : GenImports} (ref : Nat) (log : List Effect) : Stage G → Prop
  | .awaitAST asset =>
    asset.value.ref = ref ∧ log.countP (Effect.isGenerate ref) = 0 ∧
      log.countP (Effect.isSetStream ref) = 0 ∧ log.countP (Effect.isSetBlob ref) = 0
  | .awaitPlugin asset _ _ _ _ =>
    asset.value.ref = ref ∧ log.countP (Effect.isGenerate ref) = 0 ∧
      log.countP (Effect.isSetStream ref) = 0 ∧ log.countP (Effect.isSetBlob ref) = 0
  | .awaitGenerate asset _ =>
    asset.value.ref = ref ∧ log.countP (Effect.isGenerate ref) = 1 ∧
      log.countP (Effect.isSetStream ref) = 0 ∧ log.countP (Effect.isSetBlob ref) = 0
  | .awaitWrites asset out _ mapKey =>
    asset.value.ref = ref ∧ log.countP (Effect.isGenerate ref) = 1 ∧
      log.countP (Effect.isSetStream ref) = 1 ∧
      log.countP (Effect.isSetBlob ref) = (if out.map.isNullish then 0 else 1) ∧
      mapKey.isSome = !out.map.isNullish
  | .fulfilled out =>
    log.countP (Effect.isGenerate ref) = 1 ∧ log.countP (Effect.isSetStream ref) = 1 ∧
      log.countP (Effect.isSetBlob ref) = (if out.map.isNullish then 0 else 1)
  | .rejected _ => True

/-- The exact bookkeeping of the memoizer: `GenInv` for every asset; every pending
computation is the one `generateResults` holds for its asset; and for every asset with a
promise, the promise exists and the calls logged for the asset are those of its stage. -/
def GenExact {G : GenImports} (s : GenState G) : Prop :=
  (∀ r, GenInv s r) ∧
  (∀ q st asset, s.promises[q]? = some st → st.owner = some asset →
    WeakMap.get s.generateResults asset.value.ref = some q) ∧
  (∀ r p, WeakMap.get s.generateResults r = some p →
    ∃ st, s.promises[p]? = some st ∧ st.accounted r s.log)

/-! ## Further notions on the dependency view -/

/-- The call is one of the two writes of the view, `ensure` or `set`. -/
def DepOp.isWrite {Loc : Type} : DepOp Loc → Bool
  | .ensure => true
  | .set _ _ _ _ => true
  | _ => false

/-- The flag a call writes for the export name `A`: `isWeak ?? false` for a `set` on `A`,
nothing for every other call. -/
def DepOp.flagOn {Loc : Type} (A : ISymbol) : DepOp Loc → Option Bool
  | .set e _ _ w => if e = A then some (w.orDefault false) else none
  | _ => none

/-- The flag stored for an export name, `true` when it has no entry:
`symbols.get(exportSymbol)?.isWeak ?? true`. -/
def MutableDependencySymbols.weakOf {Loc : Type} (d : Dependency Loc) (A : ISymbol) : Bool :=
  match MutableDependencySymbols.get d A with
  | some s => s.isWeak
  | none => true

/-! ## Asset symbols (`AssetSymbols`, `MutableAssetSymbols`)

Both views read `this.#value.symbols` without a null check: a method call on `null` or
`undefined` throws a `TypeError`. -/

/-- The value of `asset.symbols` as the receiver of a method call. -/
def Asset.symbolsReceiver {X : Imports} (a : Asset X) :
    Except String (JSMap (AssetSymbol X.SourceLocation)) :=
  match a.symbols with
  | .val m => .ok m
  | .null => .error "TypeError: Cannot read properties of null"
  | .undefined => .error "TypeError: Cannot read properties of undefined"

namespace AssetSymbols

variable {X : Imports}

/-- The method `get(exportSymbol)`. -/
def get (a : Asset X) (exportSymbol : ISymbol) :
    Except String (Option (AssetSymbol X.SourceLocation)) :=
  match a.symbolsReceiver with
  | .ok m => .ok (JSMap.get m exportSymbol)
  | .error e => .error e

/-- The method `hasExportSymbol(exportSymbol)`. -/
def hasExportSymbol (a : Asset X) (exportSymbol : ISymbol) : Except String Bool :=
  match a.symbolsReceiver with
  | .ok m => .ok (JSMap.has m exportSymbol)
  | .error e => .error e

/-- The method `hasLocalSymbol(local)`. -/
def hasLocalSymbol (a : Asset X) (localName : ISymbol) : Except String Bool :=
  match a.symbolsReceiver with
  | .ok m => .ok ((JSMap.values m).any (fun s => decide (localName = s.localName)))
  | .error e => .error e

/-- The elements produced by `[Symbol.iterator]()`. -/
def iterate (a : Asset X) : Except String (List (ISymbol × AssetSymbol X.SourceLocation)) :=
  match a.symbolsReceiver with
  | .ok m => .ok m
  | .error e => .error e

/-- The elements produced by `exportSymbols()`. -/
def exportSymbols (a : Asset X) : Except String (List ISymbol) :=
  match a.symbolsReceiver with
  | .ok m => .ok (JSMap.keys m)
  | .error e => .error e

end AssetSymbols

namespace MutableAssetSymbols

variable {X : Imports}

/-- The method `clear()`: the record afterwards. -/
def clear (a : Asset X) : Except String (Asset X) :=
  match a.symbolsReceiver with
  | .ok m => .ok { a with symbols := .val (JSMap.clear m) }
  | .error e => .error e

/-- The method `set(exportSymbol, local, loc)`: the record afterwards. -/
def set (a : Asset X) (exportSymbol localName : ISymbol) (loc : Nullable X.SourceLocation) :
    Except String (Asset X) :=
  match a.symbolsReceiver with
  | .ok m =>
    .ok { a with symbols := .val (JSMap.set m exportSymbol { localName := localName, loc := loc }) }
  | .error e => .error e

/-- The method `get(exportSymbol)`. -/
def get (a : Asset X) (exportSymbol : ISymbol) :
    Except String (Option (AssetSymbol X.SourceLocation)) :=
  match a.symbolsReceiver with
  | .ok m => .ok (JSMap.get m exportSymbol)
  | .error e => .error e

/-- The method `hasExportSymbol(exportSymbol)`. -/
def hasExportSymbol (a : Asset X) (exportSymbol : ISymbol) : Except String Bool :=
  match a.symbolsReceiver with
  | .ok m => .ok (JSMap.has m exportSymbol)
  | .error e => .error e

/-- The method `hasLocalSymbol(local)`. -/
def hasLocalSymbol (a : Asset X) (localName : ISymbol) : Except String Bool :=
  match a.symbolsReceiver with
  | .ok m => .ok ((JSMap.values m).any (fun s => decide (localName = s.localName)))
  | .error e => .error e

/-- The elements produced by `[Symbol.iterator]()`. -/
def iterate (a : Asset X) : Except String (List (ISymbol × AssetSymbol X.SourceLocation)) :=
  match a.symbolsReceiver with
  | .ok m => .ok m
  | .error e => .error e

/-- The elements produced by `exportSymbols()`. -/
def exportSymbols (a : Asset X) : Except String (List ISymbol) :=
  match a.symbolsReceiver with
  | .ok m => .ok (JSMap.keys m)
  | .error e => .error e

end MutableAssetSymbols

/-- An asset record of the sample world with the given `symbols`. -/
def Asset.sample (symbols : Nullable (JSMap (AssetSymbol String))) : Asset Imports.sample where
  id := "0123abcd"
  committed := false
  hash := .undefined
  filePath := "src/a.js"
  query := ""
  isIsolated := false
  isInline := false
  isSplittable := .undefined
  type := "js"
  contentKey := .undefined
  mapKey := .undefined
  astKey := .undefined
  astGenerator := .undefined
  dependencies := ""
  includedFiles := ""
  isSource := true
  outputHash := .undefined
  pipeline := .undefined
  env := "browser"
  meta := ""
  stats := ""
  symbols := symbols
  sideEffects := true
  uniqueKey := ""
  plugin := .undefined
  configPath := .undefined
  configKeyPath := .undefined

/-! ## View construction (`Symbols.js`: the three constructors)

`new C(record)` allocates a fresh object `this` and runs the constructor; the object the
constructor returns is the value of the `new` expression. Records and view objects are
named by their identity. -/

/-- The view objects allocated so far, each with the record its `#value` is bound to
(`none` while unbound), and the three module-level `WeakMap`s from a record to its view. -/
structure ViewRegistry where
  objects : List (Option Nat)
  valueToSymbols : WeakMap Nat
  valueToMutableAssetSymbols : WeakMap Nat
  valueToMutableDependencySymbols : WeakMap Nat
  deriving DecidableEq, Repr

/-- The state when the module is loaded. -/
def ViewRegistry.init : ViewRegistry where
  objects := []
  valueToSymbols := []
  valueToMutableAssetSymbols := []
  valueToMutableDependencySymbols := []

/-- The expression `new AssetSymbols(asset)`, lines 33-42: the view returned and the state
afterwards. -/
def AssetSymbols.construct (r : ViewRegistry) (asset : Nat) : Nat × ViewRegistry :=
  match WeakMap.get r.valueToSymbols asset with
  | some existing => (existing, { r with objects := r.objects ++ [none] })
  | none =>
    (r.objects.length,
      { r with
        objects := r.objects ++ [some asset]
        valueToSymbols := WeakMap.set r.valueToSymbols asset r.objects.length })

/-- The expression `new MutableAssetSymbols(asset)`, lines 87-94. -/
def MutableAssetSymbols.construct (r : ViewRegistry) (asset : Nat) : Nat × ViewRegistry :=
  match WeakMap.get r.valueToMutableAssetSymbols asset with
  | some existing => (existing, { r with objects := r.objects ++ [none] })
  | none => (r.objects.length, { r with objects := r.objects ++ [some asset] })

/-- The expression `new MutableDependencySymbols(dep)`, lines 150-157. -/
def MutableDependencySymbols.construct (r : ViewRegistry) (dep : Nat) : Nat × ViewRegistry :=
  match WeakMap.get r.valueToMutableDependencySymbols dep with
  | some existing => (existing, { r with objects := r.objects ++ [none] })
  | none => (r.objects.length, { r with objects := r.objects ++ [some dep] })

/-! ## Config lookup (`assetUtils.js`: `getConfig`)

The manifest and the values in it belong to the JavaScript runtime and to `@parcel/types`:
the type of values, the truthiness test and the property read `pkg[key]` are parameters. -/

/-- What `getConfig` uses of JavaScript: the values, the truthiness of a value (the test
made by `&&` and `if`), the manifest objects, and the property read `pkg[key]`, which
yields the own or inherited property of that name and `undefined` when there is none. -/
structure ConfigImports where
  Value : Type
  truthy : Value → Bool
  PackageJSON : Type
  read : PackageJSON → String → Value

/-- The type `ConfigOutput` of `@parcel/utils`, `{config, files}`. -/
structure ConfigOutput (C : ConfigImports) where
  config : C.Value
  files : List String

/-- The third argument of `getConfig`, `{packageKey?, parse?}`. -/
structure ConfigOptions where
  packageKey : Nullable String
  parse : Nullable Bool
  deriving DecidableEq, Repr

/-- A call made by `getConfig` on a collaborator. -/
inductive ConfigCall where
  | getPackage : ConfigCall
  | loadConfig (filePath : String) (filePaths : List String) (parse : Nullable Bool) : ConfigCall
  deriving DecidableEq, Repr

/-- The asset as `getConfig` sees it: `asset.value.filePath`, what `await asset.getPackage()`
produces, and what `await loadConfig(asset.options.inputFS, ...)` produces for a file path, a
candidate list and the fourth argument (`null` or `{parse}`). -/
structure ConfigAsset (C : ConfigImports) where
  filePath : String
  getPackage : Except String (Nullable C.PackageJSON)
  loadConfig : String → List String → Nullable Bool → Except String (Nullable (ConfigOutput C))

/-- Lines 224-234 of `getConfig`: the loader is called and its result returned, `null` when
it found nothing. -/
def getConfigFromLoader {C : ConfigImports} (asset : ConfigAsset C) (filePaths : List String)
    (parse : Nullable Bool) (calls : List ConfigCall) :
    Except String (Nullable (ConfigOutput C)) × List ConfigCall :=
  let arg : Nullable Bool :=
    match parse with
    | .val b => .val b
    | _ => .null
  match asset.loadConfig asset.filePath filePaths arg with
  | .error e => (.error e, calls ++ [ConfigCall.loadConfig asset.filePath filePaths arg])
  | .ok (.val conf) =>
    (.ok (.val conf), calls ++ [ConfigCall.loadConfig asset.filePath filePaths arg])
  | .ok _ => (.ok .null, calls ++ [ConfigCall.loadConfig asset.filePath filePaths arg])

/-- The function `getConfig(asset, filePaths, options)`: what its promise settles with and
the calls made on the collaborators, in order. -/
def getConfig {C : ConfigImports} (asset : ConfigAsset C) (filePaths : List String)
    (options : Nullable ConfigOptions) :
    Except String (Nullable (ConfigOutput C)) × List ConfigCall :=
  let packageKey : Nullable String :=
    match options with
    | .val o => o.packageKey
    | _ => .undefined
  let parse : Nullable Bool :=
    match options with
    | .val o => o.parse
    | .null => .null
    | .undefined => .undefined
  match packageKey with
  | .val key =>
    match asset.getPackage with
    | .error e => (.error e, [ConfigCall.getPackage])
    | .ok (.val pkg) =>
      if C.truthy (C.read pkg key) then
        (.ok (.val { config := C.read pkg key, files := [] }), [ConfigCall.getPackage])
      else getConfigFromLoader asset filePaths parse [ConfigCall.getPackage]
    | .ok _ => getConfigFromLoader asset filePaths parse [ConfigCall.getPackage]
  | _ => getConfigFromLoader asset filePaths parse []

/-- JavaScript values of a sample world without numbers: `undefined`, `null`, booleans,
strings, and objects and functions named by a text. -/
inductive JSValue where
  | undefined : JSValue
  | null : JSValue
  | bool (b : Bool) : JSValue
  | string (s : String) : JSValue
  | object (text : String) : JSValue
  | func (name : String) : JSValue
  deriving DecidableEq, Repr

/-- JavaScript truthiness on the sample values: `undefined`, `null`, `false` and `''` are
falsy, every object and function is truthy. -/
def JSValue.truthy : JSValue → Bool
  | .undefined => false
  | .null => false
  | .bool b => b
  | .string s => decide (s ≠ "")
  | .object _ => true
  | .func _ => true

/-- A plain object of the sample world: its own properties. -/
abbrev PlainObject := List (String × JSValue)

/-- The own property of an object under a key. -/
def PlainObject.own : PlainObject → String → Option JSValue
  | [], _ => none
  | (k, v) :: rest, key => if k = key then some v else own rest key

/-- The names of the functions every plain object inherits from `Object.prototype`. -/
def objectPrototypeFunctions : List String :=
  ["constructor", "__defineGetter__", "__defineSetter__", "hasOwnProperty", "__lookupGetter__",
    "__lookupSetter__", "isPrototypeOf", "propertyIsEnumerable", "toString", "valueOf",
    "toLocaleString"]

/-- The property read `obj[key]` on a plain object: the own property, else the member
inherited from `Object.prototype`, else `undefined`. -/
def PlainObject.read (obj : PlainObject) (key : String) : JSValue :=
  match PlainObject.own obj key with
  | some v => v
  | none =>
    if key = "__proto__" then .object "Object.prototype"
    else if key ∈ objectPrototypeFunctions then .func key
    else .undefined

/-- The sample world for `getConfig`: manifests are plain objects. -/
def ConfigImports.sample : ConfigImports where
  Value := JSValue
  truthy := JSValue.truthy
  PackageJSON := PlainObject
  read := PlainObject.read

/-- An asset of the sample world for `getConfig`: the manifest is given, and the loader
finds a file `.babelrc` next to the asset whose content is the string `from-file`. -/
def ConfigAsset.sample (pkg : Nullable PlainObject) : ConfigAsset ConfigImports.sample where
  filePath := "/app/src/a.js"
  getPackage := .ok pkg
  loadConfig := fun _ _ _ => .ok (.val { config := JSValue.string "from-file", files := ["/app/.babelrc"] })

/-- The call is a call of the config loader. -/
def ConfigCall.isLoadConfig : ConfigCall → Bool
  | .loadConfig _ _ _ => true
  | .getPackage => false

/-- The argument of `md5FromString` in `createAsset`, lines 104-112, for the `idBase` that
`nullthrows(options.idBase)` returns. -/
def createAssetHashInput (X : Imports) (options : AssetOptions X) (idBase : String) : String :=
  idBase ++ ":" ++ options.type ++ ":" ++ X.getEnvironmentHash options.env ++ ":"
    ++ strOr options.uniqueKey "" ++ ":" ++ options.pipeline.orDefault ""

/-- The string contains no `:`. -/
def colonFree (s : String) : Prop := ':' ∉ s.data

instance colonFreeDecidable (s : String) : Decidable (colonFree s) := by
  unfold colonFree
  infer_instance

/-! ## Lemmas on `JSMap` -/

theorem jsMap_get_set_self {V : Type} (m : JSMap V) (k : ISymbol) (v : V) :
    JSMap.get (JSMap.set m k v) k = some v := by
  induction m with
  | nil => simp [JSMap.set, JSMap.get]
  | cons hd tl ih =>
    obtain ⟨k', v'⟩ := hd
    by_cases h : k' = k
    · simp [JSMap.set, JSMap.get, h]
    · simp [JSMap.set, JSMap.get, h, ih]

theorem jsMap_get_set_other {V : Type} (m : JSMap V) (k k' : ISymbol) (v : V) (h : k ≠ k') :
    JSMap.get (JSMap.set m k v) k' = JSMap.get m k' := by
  induction m with
  | nil => simp [JSMap.set, JSMap.get, h]
  | cons hd tl ih =>
    obtain ⟨k0, v0⟩ := hd
    by_cases h0 : k0 = k
    · subst h0
      simp [JSMap.set, JSMap.get, h]
    · simp [JSMap.set, JSMap.get, h0, ih]

/-! ## Lemmas on the dependency view -/

theorem dep_get_set_self {Loc : Type} (d : Dependency Loc) (e l : ISymbol) (loc : Nullable Loc)
    (w : Nullable Bool) :
    MutableDependencySymbols.get (MutableDependencySymbols.set d e l loc w) e =
      some { localName := l
             loc := loc
             isWeak := (match MutableDependencySymbols.get d e with
                        | some s => s.isWeak
                        | none => true) && w.orDefault false } := by
  unfold MutableDependencySymbols.set MutableDependencySymbols.get
  cases hs : d.symbols <;> simp [jsMap_get_set_self, JSMap.get]

theorem dep_get_set_other {Loc : Type} (d : Dependency Loc) (e e' l : ISymbol)
    (loc : Nullable Loc) (w : Nullable Bool) (h : e ≠ e') :
    MutableDependencySymbols.get (MutableDependencySymbols.set d e l loc w) e' =
      MutableDependencySymbols.get d e' := by
  unfold MutableDependencySymbols.set MutableDependencySymbols.get
  cases hs : d.symbols <;> simp [jsMap_get_set_other _ _ _ _ h, JSMap.get, h]

/-- A strong entry stays a strong entry under one call of the view. -/
theorem dep_strong_exec {Loc : Type} (d : Dependency Loc) (A : ISymbol) (op : DepOp Loc)
    (h : ∃ s, MutableDependencySymbols.get d A = some s ∧ s.isWeak = false) :
    ∃ s, MutableDependencySymbols.get (DepOp.exec d op).2 A = some s ∧ s.isWeak = false := by
  obtain ⟨s, hs, hw⟩ := h
  cases op with
  | ensure =>
    refine ⟨s, ?_, hw⟩
    simp only [DepOp.exec]
    cases d with
    | mk symbols =>
      cases symbols with
      | val m => exact hs
      | null => simp [MutableDependencySymbols.get] at hs
      | undefined => simp [MutableDependencySymbols.get] at hs
  | set e l loc w =>
    simp only [DepOp.exec]
    by_cases he : e = A
    · subst he
      rw [dep_get_set_self, hs]
      exact ⟨_, rfl, by simp [hw]⟩
    · rw [dep_get_set_other _ _ _ _ _ _ he]
      exact ⟨s, hs, hw⟩
  | get e => exact ⟨s, hs, hw⟩
  | hasExportSymbol e => exact ⟨s, hs, hw⟩
  | hasLocalSymbol l => exact ⟨s, hs, hw⟩
  | iterate => exact ⟨s, hs, hw⟩
  | exportSymbols => exact ⟨s, hs, hw⟩
  | isCleared => exact ⟨s, hs, hw⟩

theorem dep_run_cons {Loc : Type} (d : Dependency Loc) (op : DepOp Loc) (ops : List (DepOp Loc)) :
    DepOp.run d (op :: ops) = DepOp.run (DepOp.exec d op).2 ops := rfl

/-- A present mapping stays present under one call of the view. -/
theorem dep_present_exec {Loc : Type} (d : Dependency Loc) (op : DepOp Loc)
    (h : MutableDependencySymbols.isCleared d = false) :
    MutableDependencySymbols.isCleared (DepOp.exec d op).2 = false := by
  cases op <;> simp only [DepOp.exec] <;> try exact h
  · cases d with
    | mk symbols =>
      cases symbols <;>
        simp [MutableDependencySymbols.ensure, MutableDependencySymbols.isCleared,
          Nullable.isNullish]
  · simp [MutableDependencySymbols.set, MutableDependencySymbols.isCleared, Nullable.isNullish]

theorem dep_present_run {Loc : Type} (ops : List (DepOp Loc)) (d : Dependency Loc)
    (h : MutableDependencySymbols.isCleared d = false) :
    MutableDependencySymbols.isCleared (DepOp.run d ops) = false := by
  induction ops generalizing d with
  | nil => exact h
  | cons op ops ih =>
    rw [dep_run_cons]
    exact ih _ (dep_present_exec d op h)

/-! ## Claims on the dependency view -/

/-- C1: after `set(e, l, loc, w)` on any Dependency record, `get(e)` returns exactly
`{local: l, loc: loc, isWeak: p AND i}`, where `p` is the `isWeak` flag of the entry stored
for `e` before the call, `true` if there was none (also when the mapping was absent), and
`i` is `w`, `false` if `w` was not supplied or is `null`. -/
theorem set_then_get_merges_weak {Loc : Type} (d : Dependency Loc) (e l : ISymbol)
    (loc : Nullable Loc) (w : Nullable Bool) :
    MutableDependencySymbols.get (MutableDependencySymbols.set d e l loc w) e =
      some { localName := l
             loc := loc
             isWeak :=
               (match MutableDependencySymbols.get d e with
                | some s => s.isWeak
                | none => true) &&
               (match w with
                | .val b => b
                | .null => false
                | .undefined => false) } := by
  rw [dep_get_set_self]
  cases w <;> rfl

/-- C2: weak-symbol monotonicity. If `get(A).isWeak` is `false` in some state, then after
any finite sequence of calls on the view (`ensure`, `set` on any name with any flag, and the
reads) `get(A)` is still present with `isWeak` `false`; and on every record the writes
`(A, weak=true), (A, weak=false), (A, weak=true)` leave the flag stored for `A` at `false`. -/
theorem weak_symbol_monotone {Loc : Type} (d : Dependency Loc) (A : ISymbol)
    (ops : List (DepOp Loc))
    (h : ∃ s, MutableDependencySymbols.get d A = some s ∧ s.isWeak = false) :
    (∃ s, MutableDependencySymbols.get (DepOp.run d ops) A = some s ∧ s.isWeak = false) ∧
    (∀ (d0 : Dependency Loc) (l1 l2 l3 : ISymbol) (c1 c2 c3 : Nullable Loc),
      (MutableDependencySymbols.get
        (DepOp.run d0 [.set A l1 c1 (.val true), .set A l2 c2 (.val false),
          .set A l3 c3 (.val true)]) A).map (fun s => s.isWeak) = some false) := by
  constructor
  · induction ops generalizing d with
    | nil => exact h
    | cons op ops ih =>
      rw [dep_run_cons]
      exact ih _ (dep_strong_exec d A op h)
  · intro d0 l1 l2 l3 c1 c2 c3
    simp [DepOp.run, DepOp.exec, dep_get_set_self, Nullable.orDefault]

/-- Witness for C2: `A` is stored strong, then written weak, read, and written weak again
next to a write on another name. -/
theorem weak_symbol_monotone_witness :
    (∃ s, MutableDependencySymbols.get
        (DepOp.run (⟨.val [("A", ⟨"a", .null, false⟩)]⟩ : Dependency String)
          [.set "A" "a2" .undefined (.val true), .get "A", .ensure, .set "B" "b" .null .undefined,
            .set "A" "a3" .null (.val true)]) "A" = some s ∧ s.isWeak = false) ∧
    (∀ (d0 : Dependency String) (l1 l2 l3 : ISymbol) (c1 c2 c3 : Nullable String),
      (MutableDependencySymbols.get
        (DepOp.run d0 [.set "A" l1 c1 (.val true), .set "A" l2 c2 (.val false),
          .set "A" l3 c3 (.val true)]) "A").map (fun s => s.isWeak) = some false) :=
  weak_symbol_monotone (⟨.val [("A", ⟨"a", .null, false⟩)]⟩ : Dependency String) "A" _
    ⟨⟨"a", .null, false⟩, by decide, rfl⟩

/-- C10: lazy allocation is permanent. `isCleared` is `true` exactly when the `symbols`
mapping is absent (`null` or `undefined`), so a Dependency with an absent mapping and no
write reports `true`; after one `ensure()` or one `set(...)` it is `false`, and stays
`false` after every further finite sequence of calls on the view. -/
theorem isCleared_lazy_permanent {Loc : Type} (d : Dependency Loc) (ops : List (DepOp Loc))
    (e l : ISymbol) (loc : Nullable Loc) (w : Nullable Bool) :
    (MutableDependencySymbols.isCleared d = true ↔ (d.symbols = .null ∨ d.symbols = .undefined)) ∧
    MutableDependencySymbols.isCleared (MutableDependencySymbols.ensure d) = false ∧
    MutableDependencySymbols.isCleared (MutableDependencySymbols.set d e l loc w) = false ∧
    MutableDependencySymbols.isCleared (DepOp.run (MutableDependencySymbols.ensure d) ops) = false ∧
    MutableDependencySymbols.isCleared
      (DepOp.run (MutableDependencySymbols.set d e l loc w) ops) = false := by
  have h1 : MutableDependencySymbols.isCleared (MutableDependencySymbols.ensure d) = false := by
    cases d with
    | mk symbols =>
      cases symbols <;>
        simp [MutableDependencySymbols.ensure, MutableDependencySymbols.isCleared,
          Nullable.isNullish]
  have h2 : MutableDependencySymbols.isCleared (MutableDependencySymbols.set d e l loc w) =
      false := by
    simp [MutableDependencySymbols.set, MutableDependencySymbols.isCleared, Nullable.isNullish]
  refine ⟨?_, h1, h2, dep_present_run ops _ h1, dep_present_run ops _ h2⟩
  cases d with
  | mk symbols =>
    cases symbols <;> simp [MutableDependencySymbols.isCleared, Nullable.isNullish]

/-! ## Lemmas on strings and on `createAsset` -/

theorem str_append_left_cancel (a b c : String) (h : a ++ b = a ++ c) : b = c := by
  have h2 := congrArg String.data h
  simp only [String.data_append, List.append_cancel_left_eq] at h2
  exact String.ext h2

theorem str_append_right_cancel (a b c : String) (h : a ++ c = b ++ c) : a = b := by
  have h2 := congrArg String.data h
  simp only [String.data_append, List.append_cancel_right_eq] at h2
  exact String.ext h2

theorem strOr_empty (x : Nullable String) : strOr x "" = x.orDefault "" := by
  cases x with
  | undefined => rfl
  | null => rfl
  | val s =>
    by_cases h : s = ""
    · simp [strOr, Nullable.orDefault, h]
    · simp [strOr, Nullable.orDefault, h]

/-- With a supplied `id` the record is built and carries that `id`. -/
theorem createAsset_of_id (X : Imports) (o : AssetOptions X) (i : String) (h : o.id = .val i) :
    ∃ a, createAsset X o = .ok a ∧ a.id = i := by
  simp [createAsset, h, Nullable.isNullish]

/-- Without an `id` and with an `idBase` the record is built and carries the derived `id`. -/
theorem createAsset_of_idBase (X : Imports) (o : AssetOptions X) (b : String)
    (h : o.id.isNullish = true) (hb : o.idBase = .val b) :
    ∃ a, createAsset X o = .ok a ∧
      a.id = X.md5FromString
        (b ++ ":" ++ o.type ++ ":" ++ X.getEnvironmentHash o.env ++ ":"
          ++ o.uniqueKey.orDefault "" ++ ":" ++ o.pipeline.orDefault "") := by
  cases hid : o.id with
  | val i => simp [hid, Nullable.isNullish] at h
  | null => simp [createAsset, hid, hb, Nullable.isNullish, nullthrows, strOr_empty]
  | undefined => simp [createAsset, hid, hb, Nullable.isNullish, nullthrows, strOr_empty]

/-- With neither `id` nor `idBase` the call throws. -/
theorem createAsset_of_neither (X : Imports) (o : AssetOptions X)
    (h : o.id.isNullish = true) (hb : o.idBase.isNullish = true) :
    createAsset X o = .error "At least one of id and idBase need to be specified" := by
  simp [createAsset, h, hb]

theorem nullable_not_nullish {α : Type} (x : Nullable α) (h : x.isNullish = false) :
    ∃ a, x = .val a := by
  cases x with
  | undefined => simp [Nullable.isNullish] at h
  | null => simp [Nullable.isNullish] at h
  | val a => exact ⟨a, rfl⟩

/-- The call returns a record as soon as one of `id` and `idBase` is supplied. -/
theorem createAsset_of_either (X : Imports) (o : AssetOptions X)
    (h : o.id.isNullish = false ∨ o.idBase.isNullish = false) :
    ∃ a, createAsset X o = .ok a := by
  cases hid : o.id.isNullish with
  | false =>
    obtain ⟨i, hi⟩ := nullable_not_nullish _ hid
    obtain ⟨a, ha, _⟩ := createAsset_of_id X o i hi
    exact ⟨a, ha⟩
  | true =>
    have hb : o.idBase.isNullish = false := by
      rcases h with h | h
      · rw [hid] at h
        cases h
      · exact h
    obtain ⟨b, hb2⟩ := nullable_not_nullish _ hb
    obtain ⟨a, ha, _⟩ := createAsset_of_idBase X o b hid hb2
    exact ⟨a, ha⟩

/-! ## Claims on asset identity -/

/-- C3: `generateIdBase` follows the identity fallback order on every input: with `code`
non-null it returns `hash`; otherwise with `uniqueKey` non-null it returns `uniqueKey + ':'`
when `isSource` is true and `uniqueKey + ':' + hash` when it is false; otherwise it returns
`normalizeSeparators(path.relative(projectRoot, filePath))`. -/
theorem generateIdBase_fallback_order (X : Imports) (code : Nullable String)
    (options : ParcelOptions) (uniqueKey : Nullable String) (filePath hash : String)
    (isSource : Bool) :
    generateIdBase X code options uniqueKey filePath hash isSource =
      if code.isNullish = false then hash
      else
        match uniqueKey with
        | .val u => if isSource = true then u ++ ":" else u ++ ":" ++ hash
        | .null => X.normalizeSeparators (X.relative options.projectRoot filePath)
        | .undefined => X.normalizeSeparators (X.relative options.projectRoot filePath) := by
  cases code <;> cases uniqueKey <;> cases isSource <;>
    simp [generateIdBase, Nullable.isNullish]

/-- C4: with `id` absent and `idBase` present, `createAsset` returns a record whose `id` is
`md5FromString(idBase + ':' + type + ':' + getEnvironmentHash(env) + ':' + u + ':' + p)`,
`u` the `uniqueKey` and `p` the `pipeline`, each the empty string when absent; a second
call with equal `idBase`, `type`, environment, `uniqueKey` and `pipeline` yields the same
`id`; and a supplied `id` is the record's `id` verbatim. -/
theorem createAsset_id_derivation (X : Imports) (o o2 : AssetOptions X) (b : String)
    (hid : o.id.isNullish = true) (hb : o.idBase = .val b)
    (hid2 : o2.id.isNullish = true) (hb2 : o2.idBase = .val b)
    (htype : o2.type = o.type) (henv : o2.env = o.env)
    (hkey : o2.uniqueKey = o.uniqueKey) (hpipe : o2.pipeline = o.pipeline) :
    (∃ a, createAsset X o = .ok a ∧
      a.id = X.md5FromString
        (b ++ ":" ++ o.type ++ ":" ++ X.getEnvironmentHash o.env ++ ":"
          ++ (match o.uniqueKey with
              | .val u => u
              | .null => ""
              | .undefined => "")
          ++ ":"
          ++ (match o.pipeline with
              | .val p => p
              | .null => ""
              | .undefined => ""))) ∧
    (∃ a a2, createAsset X o = .ok a ∧ createAsset X o2 = .ok a2 ∧ a.id = a2.id) ∧
    (∀ (o3 : AssetOptions X) (i : String), o3.id = .val i →
      ∃ a, createAsset X o3 = .ok a ∧ a.id = i) := by
  obtain ⟨a, ha, hai⟩ := createAsset_of_idBase X o b hid hb
  obtain ⟨a2, ha2, hai2⟩ := createAsset_of_idBase X o2 b hid2 hb2
  refine ⟨⟨a, ha, ?_⟩, ⟨a, a2, ha, ha2, ?_⟩, fun o3 i h3 => createAsset_of_id X o3 i h3⟩
  · rw [hai]
    cases o.uniqueKey <;> cases o.pipeline <;> rfl
  · rw [hai, hai2, htype, henv, hkey, hpipe]

/-- Witness for C4: `src/a.js` of type `js` for the `browser` environment, built twice. -/
theorem createAsset_id_derivation_witness :
    (∃ a, createAsset Imports.sample
        { AssetOptions.minimal "src/a.js" "js" "browser" true with idBase := .val "src/a.js" }
        = .ok a ∧
      a.id = Imports.sample.md5FromString
        ("src/a.js" ++ ":" ++ "js" ++ ":" ++ Imports.sample.getEnvironmentHash "browser" ++ ":"
          ++ "" ++ ":" ++ "")) ∧
    (∃ a a2, createAsset Imports.sample
        { AssetOptions.minimal "src/a.js" "js" "browser" true with idBase := .val "src/a.js" }
        = .ok a ∧
      createAsset Imports.sample
        { AssetOptions.minimal "src/a.js" "js" "browser" true with
          idBase := .val "src/a.js", hash := .val "0f3a" } = .ok a2 ∧ a.id = a2.id) ∧
    (∀ (o3 : AssetOptions Imports.sample) (i : String), o3.id = .val i →
      ∃ a, createAsset Imports.sample o3 = .ok a ∧ a.id = i) :=
  createAsset_id_derivation Imports.sample
    { AssetOptions.minimal "src/a.js" "js" "browser" true with idBase := .val "src/a.js" }
    { AssetOptions.minimal "src/a.js" "js" "browser" true with
      idBase := .val "src/a.js", hash := .val "0f3a" }
    "src/a.js" rfl rfl rfl rfl rfl rfl rfl rfl

/-- C5: sensitivity. With `md5FromString` and `getEnvironmentHash` collision-free, two option
values without `id` and with the same `idBase` that differ in exactly one of `type`,
environment, `uniqueKey` and `pipeline` and agree on the other three get different `id`s;
`uniqueKey` and `pipeline` are taken with their default, the empty string, when absent. -/
theorem createAsset_id_sensitive (X : Imports)
    (hmd5 : Function.Injective X.md5FromString)
    (henv : Function.Injective X.getEnvironmentHash)
    (o1 o2 : AssetOptions X) (b : String)
    (hid1 : o1.id.isNullish = true) (hid2 : o2.id.isNullish = true)
    (hb1 : o1.idBase = .val b) (hb2 : o2.idBase = .val b)
    (hdiff :
      (o1.type ≠ o2.type ∧ o1.env = o2.env ∧
        o1.uniqueKey.orDefault "" = o2.uniqueKey.orDefault "" ∧
        o1.pipeline.orDefault "" = o2.pipeline.orDefault "") ∨
      (o1.type = o2.type ∧ o1.env ≠ o2.env ∧
        o1.uniqueKey.orDefault "" = o2.uniqueKey.orDefault "" ∧
        o1.pipeline.orDefault "" = o2.pipeline.orDefault "") ∨
      (o1.type = o2.type ∧ o1.env = o2.env ∧
        o1.uniqueKey.orDefault "" ≠ o2.uniqueKey.orDefault "" ∧
        o1.pipeline.orDefault "" = o2.pipeline.orDefault "") ∨
      (o1.type = o2.type ∧ o1.env = o2.env ∧
        o1.uniqueKey.orDefault "" = o2.uniqueKey.orDefault "" ∧
        o1.pipeline.orDefault "" ≠ o2.pipeline.orDefault "")) :
    ∃ a1 a2, createAsset X o1 = .ok a1 ∧ createAsset X o2 = .ok a2 ∧ a1.id ≠ a2.id := by
  obtain ⟨a1, ha1, hi1⟩ := createAsset_of_idBase X o1 b hid1 hb1
  obtain ⟨a2, ha2, hi2⟩ := createAsset_of_idBase X o2 b hid2 hb2
  refine ⟨a1, a2, ha1, ha2, ?_⟩
  rw [hi1, hi2]
  intro heq
  have hs := hmd5 heq
  rcases hdiff with ⟨ht, he, hu, hp⟩ | ⟨ht, he, hu, hp⟩ | ⟨ht, he, hu, hp⟩ | ⟨ht, he, hu, hp⟩
  · rw [he, hu, hp] at hs
    have h1 := str_append_right_cancel _ _ _ hs
    have h2 := str_append_right_cancel _ _ _ h1
    have h3 := str_append_right_cancel _ _ _ h2
    have h4 := str_append_right_cancel _ _ _ h3
    have h5 := str_append_right_cancel _ _ _ h4
    have h6 := str_append_right_cancel _ _ _ h5
    exact ht (str_append_left_cancel _ _ _ h6)
  · rw [ht, hu, hp] at hs
    have h1 := str_append_right_cancel _ _ _ hs
    have h2 := str_append_right_cancel _ _ _ h1
    have h3 := str_append_right_cancel _ _ _ h2
    have h4 := str_append_right_cancel _ _ _ h3
    exact he (henv (str_append_left_cancel _ _ _ h4))
  · rw [ht, he, hp] at hs
    have h1 := str_append_right_cancel _ _ _ hs
    have h2 := str_append_right_cancel _ _ _ h1
    exact hu (str_append_left_cancel _ _ _ h2)
  · rw [ht, he, hu] at hs
    exact hp (str_append_left_cancel _ _ _ hs)

/-- Witness for C5: the same file for the `browser` and for the `node` environment. -/
theorem createAsset_id_sensitive_witness :
    ∃ a1 a2,
      createAsset Imports.sample
        { AssetOptions.minimal "src/a.js" "js" "browser" true with idBase := .val "src/a.js" }
        = .ok a1 ∧
      createAsset Imports.sample
        { AssetOptions.minimal "src/a.js" "js" "node" true with idBase := .val "src/a.js" }
        = .ok a2 ∧
      a1.id ≠ a2.id :=
  createAsset_id_sensitive Imports.sample (fun _ _ h => h) (fun _ _ h => h)
    { AssetOptions.minimal "src/a.js" "js" "browser" true with idBase := .val "src/a.js" }
    { AssetOptions.minimal "src/a.js" "js" "node" true with idBase := .val "src/a.js" }
    "src/a.js" rfl rfl rfl rfl (Or.inr (Or.inl ⟨rfl, (by decide : ("browser" : String) ≠ "node"), rfl, rfl⟩))

/-- C6: `createAsset` fails if and only if both `options.id` and `options.idBase` are
absent (`null` or `undefined`): then it throws 'At least one of id and idBase need to be
specified' and builds no record; it throws nothing else, and whenever at least one of the
two is present it returns a record. -/
theorem createAsset_fails_iff_both_absent (X : Imports) (o : AssetOptions X) :
    ((∃ e, createAsset X o = .error e) ↔
      (o.id.isNullish = true ∧ o.idBase.isNullish = true)) ∧
    (createAsset X o = .error "At least one of id and idBase need to be specified" ↔
      (o.id.isNullish = true ∧ o.idBase.isNullish = true)) ∧
    ((∃ a, createAsset X o = .ok a) ↔
      (o.id.isNullish = false ∨ o.idBase.isNullish = false)) := by
  cases hid : o.id.isNullish <;> cases hb : o.idBase.isNullish
  · obtain ⟨a, ha⟩ := createAsset_of_either X o (Or.inl hid)
    simp [ha]
  · obtain ⟨a, ha⟩ := createAsset_of_either X o (Or.inl hid)
    simp [ha]
  · obtain ⟨a, ha⟩ := createAsset_of_either X o (Or.inr hb)
    simp [ha]
  · simp [createAsset_of_neither X o hid hb]

/-- Counterexample for C7 as stated: with both `id` and `idBase` supplied construction does
not fail; the record is built with the supplied `id`. -/
theorem createAsset_both_supplied_counterexample :
    ∃ a,
      createAsset Imports.sample
        { AssetOptions.minimal "src/a.js" "js" "browser" true with
          id := .val "0123abcd", idBase := .val "src/a.js" } = .ok a ∧
      a.id = "0123abcd" :=
  ⟨_, rfl, rfl⟩

/-- C7, amended: at least one of `id` and `idBase` must be available at construction.
`createAsset` returns a record exactly for the option values in which at least one of the
two is supplied; with both supplied the record carries the supplied `id`; with neither it
fails. -/
theorem createAsset_succeeds_iff_one_supplied (X : Imports) (o : AssetOptions X) :
    ((∃ a, createAsset X o = .ok a) ↔ ¬ (o.id.isNullish = true ∧ o.idBase.isNullish = true)) ∧
    (∀ i b, o.id = .val i → o.idBase = .val b → ∃ a, createAsset X o = .ok a ∧ a.id = i) ∧
    (o.id.isNullish = true ∧ o.idBase.isNullish = true → ∀ a, createAsset X o ≠ .ok a) := by
  refine ⟨?_, fun i _ hi _ => createAsset_of_id X o i hi, ?_⟩
  · cases hid : o.id.isNullish <;> cases hb : o.idBase.isNullish
    · obtain ⟨a, ha⟩ := createAsset_of_either X o (Or.inl hid)
      simp [ha]
    · obtain ⟨a, ha⟩ := createAsset_of_either X o (Or.inl hid)
      simp [ha]
    · obtain ⟨a, ha⟩ := createAsset_of_either X o (Or.inr hb)
      simp [ha]
    · simp [createAsset_of_neither X o hid hb]
  · rintro ⟨hid, hb⟩ a
    simp [createAsset_of_neither X o hid hb]

/-! ## Lemmas on the generate memoizer -/

theorem weakMap_get_set_self {V : Type} (m : WeakMap V) (k : Nat) (v : V) :
    WeakMap.get (WeakMap.set m k v) k = some v := by
  induction m with
  | nil => simp [WeakMap.set, WeakMap.get]
  | cons hd tl ih =>
    obtain ⟨k', v'⟩ := hd
    by_cases h : k' = k
    · simp [WeakMap.set, WeakMap.get, h]
    · simp [WeakMap.set, WeakMap.get, h, ih]

theorem weakMap_get_set_other {V : Type} (m : WeakMap V) (k k' : Nat) (v : V) (h : k ≠ k') :
    WeakMap.get (WeakMap.set m k v) k' = WeakMap.get m k' := by
  induction m with
  | nil => simp [WeakMap.set, WeakMap.get, h]
  | cons hd tl ih =>
    obtain ⟨k0, v0⟩ := hd
    by_cases h0 : k0 = k
    · subst h0
      simp [WeakMap.set, WeakMap.get, h]
    · simp [WeakMap.set, WeakMap.get, h0, ih]

/-- A call on an asset that has a promise returns that promise and changes nothing. -/
theorem generateFromAST_hit {G : GenImports} (s : GenState G) (asset : AssetHandle G) (p : Nat)
    (h : WeakMap.get s.generateResults asset.value.ref = some p) :
    generateFromAST s asset = (p, s) := by
  simp [generateFromAST, h]

/-- A call on an asset that has no promise starts a computation and records its promise. -/
theorem generateFromAST_miss {G : GenImports} (s : GenState G) (asset : AssetHandle G)
    (h : WeakMap.get s.generateResults asset.value.ref = none) :
    generateFromAST s asset =
      (s.promises.length,
        { generateResults := WeakMap.set s.generateResults asset.value.ref s.promises.length
          promises := s.promises ++ [Stage.awaitAST asset]
          log := s.log ++
            [Effect.start asset.value.ref s.promises.length, Effect.getAST asset.value.ref] }) := by
  simp [generateFromAST, h, _generateFromAST]

/-- Replacing one element moves a count by what the two elements contribute. -/
theorem countP_set_balance {α : Type} (q : α → Bool) (l : List α) (i : Nat) (x y : α)
    (h : l[i]? = some y) :
    (l.set i x).countP q + (if q y then 1 else 0) = l.countP q + (if q x then 1 else 0) := by
  induction l generalizing i with
  | nil => simp at h
  | cons hd tl ih =>
    cases i with
    | zero =>
      simp only [List.getElem?_cons_zero, Option.some.injEq] at h
      subst h
      simp only [List.set_cons_zero, List.countP_cons]
      omega
    | succ j =>
      simp only [List.getElem?_cons_succ] at h
      have := ih j h
      simp only [List.set_cons_succ, List.countP_cons]
      omega

/-- Resuming a computation starts no computation. -/
theorem resume_no_start {G : GenImports} (st : Stage G) (r : Nat) :
    st.resume.2.countP (Effect.isStart r) = 0 := by
  cases st <;>
    simp only [Stage.resume, Stage.afterAST, Stage.afterPlugin, Stage.afterGenerate,
      Stage.afterWrites] <;>
    (repeat' split) <;> simp [Effect.isStart]

/-- Resuming a computation invokes `generate` at most once, and only on leaving the stages
before that call. -/
theorem resume_generate_budget {G : GenImports} (st : Stage G) (r : Nat) :
    (if st.resume.1.beforeGenerate r then 1 else 0) + st.resume.2.countP (Effect.isGenerate r) ≤
      (if st.beforeGenerate r then 1 else 0) := by
  cases st <;>
    simp only [Stage.resume, Stage.afterAST, Stage.afterPlugin, Stage.afterGenerate,
      Stage.afterWrites] <;>
    (repeat' split) <;> simp_all [Effect.isGenerate, Stage.beforeGenerate]

/-- Resuming a computation issues `setStream` at most once, and only on leaving the stages
before the writes. -/
theorem resume_setStream_budget {G : GenImports} (st : Stage G) (r : Nat) :
    (if st.resume.1.beforeWrites r then 1 else 0) + st.resume.2.countP (Effect.isSetStream r) ≤
      (if st.beforeWrites r then 1 else 0) := by
  cases st <;>
    simp only [Stage.resume, Stage.afterAST, Stage.afterPlugin, Stage.afterGenerate,
      Stage.afterWrites] <;>
    (repeat' split) <;> simp_all [Effect.isSetStream, Stage.beforeWrites]

/-- Resuming a computation issues `setBlob` at most once, and only on leaving the stages
before the writes. -/
theorem resume_setBlob_budget {G : GenImports} (st : Stage G) (r : Nat) :
    (if st.resume.1.beforeWrites r then 1 else 0) + st.resume.2.countP (Effect.isSetBlob r) ≤
      (if st.beforeWrites r then 1 else 0) := by
  cases st <;>
    simp only [Stage.resume, Stage.afterAST, Stage.afterPlugin, Stage.afterGenerate,
      Stage.afterWrites] <;>
    (repeat' split) <;> simp_all [Effect.isSetBlob, Stage.beforeWrites]

theorem genInv_init (G : GenImports) (r : Nat) : GenInv (GenState.init G) r := by
  simp [GenInv, GenState.init, WeakMap.get]

theorem genInv_call {G : GenImports} (s : GenState G) (asset : AssetHandle G) (r : Nat)
    (h : GenInv s r) : GenInv (generateFromAST s asset).2 r := by
  cases hget : WeakMap.get s.generateResults asset.value.ref with
  | some p =>
    rw [generateFromAST_hit s asset p hget]
    exact h
  | none =>
    rw [generateFromAST_miss s asset hget]
    obtain ⟨h1, h2, h3, h4⟩ := h
    by_cases hr : asset.value.ref = r
    · subst hr
      rw [hget] at h1
      simp only [GenInv, weakMap_get_set_self, List.countP_append, List.countP_cons,
        List.countP_nil, Effect.isStart, Effect.isGenerate, Effect.isSetStream,
        Effect.isSetBlob, Stage.beforeGenerate, Stage.beforeWrites] at h1 h2 h3 h4 ⊢
      simp at h1 h2 h3 h4 ⊢
      exact ⟨h1, by omega, by omega, by omega⟩
    · simp only [GenInv, weakMap_get_set_other _ _ _ _ hr, List.countP_append,
        List.countP_cons, List.countP_nil, Effect.isStart, Effect.isGenerate,
        Effect.isSetStream, Effect.isSetBlob, Stage.beforeGenerate, Stage.beforeWrites]
        at h1 h2 h3 h4 ⊢
      simp [hr] at h1 h2 h3 h4 ⊢
      omega

theorem genInv_resume {G : GenImports} (s : GenState G) (p r : Nat) (h : GenInv s r) :
    GenInv (resumePromise s p) r := by
  unfold resumePromise
  cases hp : s.promises[p]? with
  | none => exact h
  | some st =>
    obtain ⟨h1, h2, h3, h4⟩ := h
    have b0 := resume_no_start st r
    have b1 := resume_generate_budget st r
    have b2 := resume_setStream_budget st r
    have b3 := resume_setBlob_budget st r
    have c1 := countP_set_balance (Stage.beforeGenerate r) s.promises p st.resume.1 st hp
    have c2 := countP_set_balance (Stage.beforeWrites r) s.promises p st.resume.1 st hp
    simp only [GenInv, List.countP_append]
    refine ⟨?_, ?_, ?_, ?_⟩ <;> omega

theorem genInv_step {G : GenImports} (s : GenState G) (ev : Event G) (r : Nat)
    (h : GenInv s r) : GenInv (step s ev).2 r := by
  cases ev with
  | call asset => exact genInv_call s asset r h
  | resume p => exact genInv_resume s p r h

theorem runEvents_cons_state {G : GenImports} (s : GenState G) (ev : Event G)
    (rest : List (Event G)) :
    (runEvents s (ev :: rest)).2 = (runEvents (step s ev).2 rest).2 := by
  simp only [runEvents]
  split <;> rfl

theorem runEvents_cons_returns {G : GenImports} (s : GenState G) (ev : Event G)
    (rest : List (Event G)) :
    (runEvents s (ev :: rest)).1 = (step s ev).1.toList ++ (runEvents (step s ev).2 rest).1 := by
  simp only [runEvents]
  split <;> rename_i h <;> simp [h]

theorem genInv_run {G : GenImports} (evs : List (Event G)) (s : GenState G) (r : Nat)
    (h : GenInv s r) : GenInv (runEvents s evs).2 r := by
  induction evs generalizing s with
  | nil => exact h
  | cons ev rest ih =>
    rw [runEvents_cons_state]
    exact ih _ (genInv_step s ev r h)

/-- After a call the asset has the returned promise in `generateResults`. -/
theorem generateFromAST_records {G : GenImports} (s : GenState G) (asset : AssetHandle G) :
    WeakMap.get (generateFromAST s asset).2.generateResults asset.value.ref =
      some (generateFromAST s asset).1 := by
  cases hget : WeakMap.get s.generateResults asset.value.ref with
  | some p =>
    rw [generateFromAST_hit s asset p hget]
    exact hget
  | none =>
    rw [generateFromAST_miss s asset hget]
    exact weakMap_get_set_self _ _ _

/-- An entry of `generateResults` is never replaced or removed. -/
theorem step_keeps_entry {G : GenImports} (s : GenState G) (ev : Event G) (r p : Nat)
    (h : WeakMap.get s.generateResults r = some p) :
    WeakMap.get (step s ev).2.generateResults r = some p := by
  cases ev with
  | call asset =>
    simp only [step]
    cases hget : WeakMap.get s.generateResults asset.value.ref with
    | some q =>
      rw [generateFromAST_hit s asset q hget]
      exact h
    | none =>
      rw [generateFromAST_miss s asset hget]
      have hne : asset.value.ref ≠ r := by
        intro he
        rw [he, h] at hget
        cases hget
      simp only [weakMap_get_set_other _ _ _ _ hne]
      exact h
  | resume q =>
    simp only [step, resumePromise]
    split <;> exact h

theorem run_keeps_entry {G : GenImports} (evs : List (Event G)) (s : GenState G) (r p : Nat)
    (h : WeakMap.get s.generateResults r = some p) :
    WeakMap.get (runEvents s evs).2.generateResults r = some p := by
  induction evs generalizing s with
  | nil => exact h
  | cons ev rest ih =>
    rw [runEvents_cons_state]
    exact ih _ (step_keeps_entry s ev r p h)

/-- Every promise handed out by a trace is the one `generateResults` holds at its end. -/
theorem run_returns_recorded {G : GenImports} (evs : List (Event G)) (s : GenState G)
    (r p : Nat) (h : (r, p) ∈ (runEvents s evs).1) :
    WeakMap.get (runEvents s evs).2.generateResults r = some p := by
  induction evs generalizing s with
  | nil => simp [runEvents] at h
  | cons ev rest ih =>
    rw [runEvents_cons_returns] at h
    rw [runEvents_cons_state]
    rcases List.mem_append.mp h with h1 | h2
    · cases ev with
      | call asset =>
        simp only [step, Option.toList, List.mem_singleton, Prod.mk.injEq] at h1
        obtain ⟨hr, hp⟩ := h1
        subst hr
        subst hp
        exact run_keeps_entry rest _ _ _ (generateFromAST_records s asset)
      | resume q => simp [step] at h1
    · exact ih _ h2

theorem run_call_refs {G : GenImports} (evs : List (Event G)) (s : GenState G) :
    (runEvents s evs).1.map Prod.fst = evs.filterMap Event.callRef := by
  induction evs generalizing s with
  | nil => rfl
  | cons ev rest ih =>
    rw [runEvents_cons_returns, List.map_append, ih]
    cases ev <;> simp [step, Event.callRef, List.filterMap_cons]

/-- An asset has a promise at the end of a trace exactly when it had one at the start or
the trace calls `generateFromAST` on it. -/
theorem run_has_entry {G : GenImports} (evs : List (Event G)) (s : GenState G) (r : Nat) :
    (WeakMap.get (runEvents s evs).2.generateResults r).isSome = true ↔
      ((WeakMap.get s.generateResults r).isSome = true ∨ r ∈ evs.filterMap Event.callRef) := by
  induction evs generalizing s with
  | nil => simp [runEvents]
  | cons ev rest ih =>
    rw [runEvents_cons_state, ih]
    cases ev with
    | call asset =>
      simp only [step, Event.callRef, List.filterMap_cons, List.mem_cons]
      cases hget : WeakMap.get s.generateResults asset.value.ref with
      | some q =>
        rw [generateFromAST_hit s asset q hget]
        constructor
        · rintro (h | h)
          · exact Or.inl h
          · exact Or.inr (Or.inr h)
        · rintro (h | h | h)
          · exact Or.inl h
          · subst h
            simp [hget]
          · exact Or.inr h
      | none =>
        rw [generateFromAST_miss s asset hget]
        by_cases hr : asset.value.ref = r
        · subst hr
          simp [weakMap_get_set_self]
        · simp only [weakMap_get_set_other _ _ _ _ hr]
          constructor
          · rintro (h | h)
            · exact Or.inl h
            · exact Or.inr (Or.inr h)
          · rintro (h | h | h)
            · exact Or.inl h
            · exact absurd h.symm hr
            · exact Or.inr h
    | resume q =>
      have hs : (step s (Event.resume q)).2.generateResults = s.generateResults := by
        simp only [step, resumePromise]
        split <;> rfl
      simp [hs, Event.callRef, List.filterMap_cons]

theorem runEvents_append_state {G : GenImports} (xs ys : List (Event G)) (s : GenState G) :
    (runEvents s (xs ++ ys)).2 = (runEvents (runEvents s xs).2 ys).2 := by
  induction xs generalizing s with
  | nil => rfl
  | cons ev rest ih =>
    rw [List.cons_append, runEvents_cons_state, runEvents_cons_state, ih]

theorem list_set_same {α : Type} (l : List α) (i : Nat) (x : α) (h : l[i]? = some x) :
    l.set i x = l := by
  induction l generalizing i with
  | nil => rfl
  | cons hd tl ih =>
    cases i with
    | zero =>
      simp only [List.getElem?_cons_zero, Option.some.injEq] at h
      simp [h]
    | succ j =>
      simp only [List.getElem?_cons_succ] at h
      simp [ih j h]

/-- The counts of the calls made for one asset over a trace from the initial state. -/
theorem run_counts {G : GenImports} (evs : List (Event G)) (r : Nat) :
    (runEvents (GenState.init G) evs).2.log.countP (Effect.isStart r) =
      (if r ∈ evs.filterMap Event.callRef then 1 else 0) ∧
    (runEvents (GenState.init G) evs).2.log.countP (Effect.isGenerate r) ≤ 1 ∧
    (runEvents (GenState.init G) evs).2.log.countP (Effect.isSetStream r) ≤ 1 ∧
    (runEvents (GenState.init G) evs).2.log.countP (Effect.isSetBlob r) ≤ 1 := by
  obtain ⟨h1, h2, h3, h4⟩ := genInv_run evs (GenState.init G) r (genInv_init G r)
  have he := run_has_entry evs (GenState.init G) r
  have h0 : (WeakMap.get (GenState.init G).generateResults r).isSome = false := rfl
  rw [h0] at he
  have hstart : (runEvents (GenState.init G) evs).2.log.countP (Effect.isStart r) =
      (if r ∈ evs.filterMap Event.callRef then 1 else 0) := by
    rw [h1]
    by_cases hm : r ∈ evs.filterMap Event.callRef
    · rw [he.mpr (Or.inr hm)]
      simp [hm]
    · have hn : (WeakMap.get (runEvents (GenState.init G) evs).2.generateResults r).isSome =
          false := by
        cases hx : (WeakMap.get (runEvents (GenState.init G) evs).2.generateResults r).isSome
        · rfl
        · rcases he.mp hx with h | h
          · cases h
          · exact absurd h hm
      rw [hn]
      simp [hm]
  refine ⟨hstart, ?_, ?_, ?_⟩ <;> (split at hstart <;> omega)

/-! ## Exact call counts of the generate memoizer -/

theorem accounted_afterAST {G : GenImports} (asset : AssetHandle G) (r : Nat) (log : List Effect)
    (h : (Stage.awaitAST asset).accounted r log) :
    (Stage.afterAST asset).1.accounted r (log ++ (Stage.afterAST asset).2) := by
  obtain ⟨h0, h1, h2, h3⟩ := h
  unfold Stage.afterAST
  split
  · trivial
  · split
    · trivial
    · split
      · trivial
      · split
        · trivial
        · simp [Stage.accounted, List.countP_append, List.countP_cons, Effect.isGenerate,
            Effect.isSetStream, Effect.isSetBlob, h0, h1, h2, h3]
  · trivial

theorem accounted_afterPlugin {G : GenImports} (asset : AssetHandle G) (ast : G.AST)
    (pluginName configPath configKeyPath : String) (r : Nat) (log : List Effect)
    (h : (Stage.awaitPlugin asset ast pluginName configPath configKeyPath).accounted r log) :
    (Stage.afterPlugin asset pluginName configPath configKeyPath).1.accounted r
      (log ++ (Stage.afterPlugin asset pluginName configPath configKeyPath).2) := by
  obtain ⟨h0, h1, h2, h3⟩ := h
  unfold Stage.afterPlugin
  split
  · trivial
  · split
    · trivial
    · simp [Stage.accounted, List.countP_append, List.countP_cons, Effect.isGenerate,
        Effect.isSetStream, Effect.isSetBlob, h0, h1, h2, h3]

theorem accounted_afterGenerate {G : GenImports} (asset : AssetHandle G)
    (result : Except String (GenerateOutput G)) (r : Nat) (log : List Effect)
    (h : (Stage.awaitGenerate asset result).accounted r log) :
    (Stage.afterGenerate asset result).1.accounted r
      (log ++ (Stage.afterGenerate asset result).2) := by
  obtain ⟨h0, h1, h2, h3⟩ := h
  unfold Stage.afterGenerate
  split
  · trivial
  · rename_i out
    split
    · trivial
    · cases hm : out.map with
      | val m =>
        simp only [GenImports.mapBuffer]
        split
        · trivial
        · simp [Stage.accounted, List.countP_append, List.countP_cons, Effect.isGenerate,
            Effect.isSetStream, Effect.isSetBlob, h0, h1, h2, h3, hm, Nullable.isNullish]
      | null =>
        simp [GenImports.mapBuffer, Stage.accounted, List.countP_append, List.countP_cons,
          Effect.isGenerate, Effect.isSetStream, Effect.isSetBlob, h0, h1, h2, h3, hm,
          Nullable.isNullish]
      | undefined =>
        simp [GenImports.mapBuffer, Stage.accounted, List.countP_append, List.countP_cons,
          Effect.isGenerate, Effect.isSetStream, Effect.isSetBlob, h0, h1, h2, h3, hm,
          Nullable.isNullish]

theorem accounted_afterWrites {G : GenImports} (asset : AssetHandle G) (out : GenerateOutput G)
    (contentKey : String) (mapKey : Option String) (r : Nat) (log : List Effect)
    (h : (Stage.awaitWrites asset out contentKey mapKey).accounted r log) :
    (Stage.afterWrites asset out contentKey mapKey).1.accounted r
      (log ++ (Stage.afterWrites asset out contentKey mapKey).2) := by
  obtain ⟨h0, h1, h2, h3, h4⟩ := h
  unfold Stage.afterWrites
  split
  · trivial
  · simp only
    split
    · trivial
    · split
      · split
        · trivial
        · simp [Stage.accounted, h1, h2, h3]
      · simp [Stage.accounted, h1, h2, h3]

/-- One resumption takes a computation from the calls of its stage to the calls of the
next. -/
theorem accounted_resume {G : GenImports} (st : Stage G) (r : Nat) (log : List Effect)
    (h : st.accounted r log) : st.resume.1.accounted r (log ++ st.resume.2) := by
  cases st with
  | awaitAST asset => exact accounted_afterAST asset r log h
  | awaitPlugin asset ast pluginName configPath configKeyPath =>
    exact accounted_afterPlugin asset ast pluginName configPath configKeyPath r log h
  | awaitGenerate asset result => exact accounted_afterGenerate asset result r log h
  | awaitWrites asset out contentKey mapKey =>
    exact accounted_afterWrites asset out contentKey mapKey r log h
  | fulfilled out => simpa [Stage.resume, Stage.accounted] using h
  | rejected m => trivial

/-- A resumption keeps the asset of a computation that is still pending. -/
theorem resume_owner {G : GenImports} (st : Stage G) (asset : AssetHandle G)
    (h : st.resume.1.owner = some asset) : st.owner = some asset := by
  cases st with
  | awaitAST a =>
    simp only [Stage.resume, Stage.afterAST] at h
    (repeat' split at h) <;> simp_all [Stage.owner]
  | awaitPlugin a ast pluginName configPath configKeyPath =>
    simp only [Stage.resume, Stage.afterPlugin] at h
    (repeat' split at h) <;> simp_all [Stage.owner]
  | awaitGenerate a result =>
    simp only [Stage.resume, Stage.afterGenerate] at h
    (repeat' split at h) <;> simp_all [Stage.owner]
  | awaitWrites a out contentKey mapKey =>
    simp only [Stage.resume, Stage.afterWrites] at h
    (repeat' split at h) <;> simp_all [Stage.owner]
  | fulfilled out => simp [Stage.resume, Stage.owner] at h
  | rejected m => simp [Stage.resume, Stage.owner] at h

/-- A resumption makes no call for an asset other than its own. -/
theorem resume_other_ref {G : GenImports} (st : Stage G) (asset : AssetHandle G) (r : Nat)
    (h : st.owner = some asset) (hne : asset.value.ref ≠ r) :
    st.resume.2.countP (Effect.isGenerate r) = 0 ∧
    st.resume.2.countP (Effect.isSetStream r) = 0 ∧
    st.resume.2.countP (Effect.isSetBlob r) = 0 := by
  cases st with
  | awaitAST a =>
    simp only [Stage.owner, Option.some.injEq] at h
    subst h
    simp only [Stage.resume, Stage.afterAST]
    (repeat' split) <;> simp [Effect.isGenerate, Effect.isSetStream, Effect.isSetBlob]
  | awaitPlugin a ast pluginName configPath configKeyPath =>
    simp only [Stage.owner, Option.some.injEq] at h
    subst h
    simp only [Stage.resume, Stage.afterPlugin]
    (repeat' split) <;> simp [Effect.isGenerate, Effect.isSetStream, Effect.isSetBlob, hne]
  | awaitGenerate a result =>
    simp only [Stage.owner, Option.some.injEq] at h
    subst h
    simp only [Stage.resume, Stage.afterGenerate]
    (repeat' split) <;> simp [Effect.isGenerate, Effect.isSetStream, Effect.isSetBlob, hne]
  | awaitWrites a out contentKey mapKey =>
    simp only [Stage.resume, Stage.afterWrites]
    (repeat' split) <;> simp
  | fulfilled out => simp [Stage.owner] at h
  | rejected m => simp [Stage.owner] at h

/-- Resuming a settled promise does nothing. -/
theorem resume_settled {G : GenImports} (st : Stage G) (h : st.owner = none) :
    st.resume = (st, []) := by
  cases st <;> simp [Stage.owner] at h <;> rfl

/-- The accounting of a stage reads the log only through the three counts. -/
theorem accounted_congr {G : GenImports} (st : Stage G) (r : Nat) (log log2 : List Effect)
    (hg : log2.countP (Effect.isGenerate r) = log.countP (Effect.isGenerate r))
    (hs : log2.countP (Effect.isSetStream r) = log.countP (Effect.isSetStream r))
    (hb : log2.countP (Effect.isSetBlob r) = log.countP (Effect.isSetBlob r))
    (h : st.accounted r log) : st.accounted r log2 := by
  cases st <;> simp only [Stage.accounted, hg, hs, hb] at h ⊢ <;> exact h

theorem list_concat_lookup {α : Type} (l : List α) (x y : α) (i : Nat)
    (h : (l ++ [x])[i]? = some y) : l[i]? = some y ∨ (i = l.length ∧ y = x) := by
  by_cases hi : i < l.length
  · rw [List.getElem?_append_left hi] at h
    exact Or.inl h
  · rw [List.getElem?_append_right (Nat.le_of_not_lt hi)] at h
    cases hk : i - l.length with
    | zero =>
      rw [hk] at h
      simp only [List.getElem?_cons_zero, Option.some.injEq] at h
      exact Or.inr ⟨by omega, h.symm⟩
    | succ k =>
      rw [hk] at h
      simp at h

theorem list_lookup_concat {α : Type} (l : List α) (x y : α) (i : Nat) (h : l[i]? = some y) :
    (l ++ [x])[i]? = some y := by
  have hi : i < l.length := by
    by_contra hn
    rw [List.getElem?_eq_none (Nat.le_of_not_lt hn)] at h
    cases h
  rw [List.getElem?_append_left hi]
  exact h

theorem list_lookup_last {α : Type} (l : List α) (x : α) : (l ++ [x])[l.length]? = some x := by
  simp

theorem list_lookup_set_self {α : Type} (l : List α) (i : Nat) (x y : α) (h : l[i]? = some y) :
    (l.set i x)[i]? = some x := by
  induction l generalizing i with
  | nil => simp at h
  | cons hd tl ih =>
    cases i with
    | zero => simp
    | succ j =>
      simp only [List.getElem?_cons_succ] at h
      simpa using ih j h

theorem list_lookup_set_other {α : Type} (l : List α) (i j : Nat) (x : α) (h : i ≠ j) :
    (l.set i x)[j]? = l[j]? := by
  induction l generalizing i j with
  | nil => simp
  | cons hd tl ih =>
    cases i with
    | zero =>
      cases j with
      | zero => exact absurd rfl h
      | succ k => simp
    | succ i2 =>
      cases j with
      | zero => simp
      | succ k =>
        simp only [List.set_cons_succ, List.getElem?_cons_succ]
        exact ih i2 k (fun he => h (by rw [he]))

theorem genExact_init (G : GenImports) : GenExact (GenState.init G) := by
  refine ⟨fun r => genInv_init G r, ?_, ?_⟩
  · intro q st asset hq
    simp [GenState.init] at hq
  · intro r p hp
    simp [GenState.init, WeakMap.get] at hp

/-- An asset without a promise has no call logged for it. -/
theorem genInv_no_entry {G : GenImports} (s : GenState G) (r : Nat) (h : GenInv s r)
    (hnone : WeakMap.get s.generateResults r = none) :
    s.log.countP (Effect.isGenerate r) = 0 ∧ s.log.countP (Effect.isSetStream r) = 0 ∧
    s.log.countP (Effect.isSetBlob r) = 0 := by
  obtain ⟨h1, h2, h3, h4⟩ := h
  rw [hnone] at h1
  simp only [Option.isSome_none, Bool.false_eq_true, if_false] at h1
  omega

theorem genExact_call {G : GenImports} (s : GenState G) (asset : AssetHandle G)
    (h : GenExact s) : GenExact (generateFromAST s asset).2 := by
  have hinv : ∀ r, GenInv (generateFromAST s asset).2 r := fun r => genInv_call s asset r (h.1 r)
  cases hget : WeakMap.get s.generateResults asset.value.ref with
  | some p =>
    rw [generateFromAST_hit s asset p hget]
    exact h
  | none =>
    refine ⟨hinv, ?_, ?_⟩
    · rw [generateFromAST_miss s asset hget]
      intro q st a hq ho
      rcases list_concat_lookup _ _ _ _ hq with hold | ⟨hq2, hst⟩
      · have hrec := h.2.1 q st a hold ho
        have hne : asset.value.ref ≠ a.value.ref := by
          intro he
          rw [he, hrec] at hget
          cases hget
        simp only [weakMap_get_set_other _ _ _ _ hne]
        exact hrec
      · subst hst
        simp only [Stage.owner, Option.some.injEq] at ho
        subst ho
        rw [hq2]
        exact weakMap_get_set_self _ _ _
    · rw [generateFromAST_miss s asset hget]
      intro r p hp
      by_cases hr : asset.value.ref = r
      · subst hr
        simp only [weakMap_get_set_self, Option.some.injEq] at hp
        subst hp
        refine ⟨Stage.awaitAST asset, list_lookup_last _ _, ?_⟩
        obtain ⟨c1, c2, c3⟩ := genInv_no_entry s asset.value.ref (h.1 _) hget
        simp [Stage.accounted, List.countP_append, List.countP_cons, Effect.isGenerate,
          Effect.isSetStream, Effect.isSetBlob, c1, c2, c3]
      · simp only [weakMap_get_set_other _ _ _ _ hr] at hp
        obtain ⟨st, hst, hacc⟩ := h.2.2 r p hp
        refine ⟨st, list_lookup_concat _ _ _ _ hst, ?_⟩
        apply accounted_congr st r s.log _ _ _ _ hacc <;>
          simp [List.countP_append, List.countP_cons, Effect.isGenerate, Effect.isSetStream,
            Effect.isSetBlob]

theorem genExact_resume {G : GenImports} (s : GenState G) (q : Nat) (h : GenExact s) :
    GenExact (resumePromise s q) := by
  have hinv : ∀ r, GenInv (resumePromise s q) r := fun r => genInv_resume s q r (h.1 r)
  refine ⟨hinv, ?_, ?_⟩
  · unfold resumePromise
    cases hq : s.promises[q]? with
    | none => exact h.2.1
    | some st =>
      intro q2 st2 a hq2 ho
      dsimp only at hq2 ⊢
      by_cases he : q2 = q
      · subst he
        simp only [list_lookup_set_self _ _ _ _ hq, Option.some.injEq] at hq2
        subst hq2
        exact h.2.1 q2 st a hq (resume_owner st a ho)
      · simp only [list_lookup_set_other _ _ _ _ (Ne.symm he)] at hq2
        exact h.2.1 q2 st2 a hq2 ho
  · unfold resumePromise
    cases hq : s.promises[q]? with
    | none => exact h.2.2
    | some st =>
      intro r p hp
      dsimp only at hp ⊢
      obtain ⟨stp, hsp, hacc⟩ := h.2.2 r p hp
      by_cases he : p = q
      · subst he
        rw [hq] at hsp
        cases hsp
        exact ⟨st.resume.1, list_lookup_set_self _ _ _ _ hq, accounted_resume st r s.log hacc⟩
      · refine ⟨stp, ?_, ?_⟩
        · simp only [list_lookup_set_other _ _ _ _ (Ne.symm he)]
          exact hsp
        · cases ho : st.owner with
          | none =>
            rw [resume_settled st ho]
            simpa using hacc
          | some a0 =>
            have hrec := h.2.1 q st a0 hq ho
            have hne : a0.value.ref ≠ r := by
              intro hr
              rw [hr, hp] at hrec
              exact he (Option.some.inj hrec)
            obtain ⟨c1, c2, c3⟩ := resume_other_ref st a0 r ho hne
            apply accounted_congr stp r s.log _ _ _ _ hacc <;>
              simp [List.countP_append, c1, c2, c3]

theorem genExact_run {G : GenImports} (evs : List (Event G)) (s : GenState G)
    (h : GenExact s) : GenExact (runEvents s evs).2 := by
  induction evs generalizing s with
  | nil => exact h
  | cons ev rest ih =>
    rw [runEvents_cons_state]
    apply ih
    cases ev with
    | call asset => exact genExact_call s asset h
    | resume q => exact genExact_resume s q h

/-! ## Claims on the generate memoizer -/

/-- Counterexample for C8 as stated: the plugin's `generate` fails, so the promise of asset 7
is rejected; a later call on the same asset, through a handle whose plugin would succeed,
is again given promise 0, and after further turns of the event loop there is still one
promise, one started computation and one invocation of `generate`. -/
theorem generateFromAST_failure_retry_counterexample :
    ((runEvents (GenState.init GenImports.sample)
        [.call (AssetHandle.sample 7 (.ok (.val "ast")) (some (.error "generate failed"))),
          .resume 0, .resume 0, .resume 0]).2.promises[0]?).bind Stage.rejection =
      some "generate failed" ∧
    (runEvents (GenState.init GenImports.sample)
        [.call (AssetHandle.sample 7 (.ok (.val "ast")) (some (.error "generate failed"))),
          .resume 0, .resume 0, .resume 0,
          .call (AssetHandle.sample 7 (.ok (.val "ast"))
            (some (.ok { content := .text "out", map := .null }))),
          .resume 0, .resume 1]).1 = [(7, 0), (7, 0)] ∧
    (runEvents (GenState.init GenImports.sample)
        [.call (AssetHandle.sample 7 (.ok (.val "ast")) (some (.error "generate failed"))),
          .resume 0, .resume 0, .resume 0,
          .call (AssetHandle.sample 7 (.ok (.val "ast"))
            (some (.ok { content := .text "out", map := .null }))),
          .resume 0, .resume 1]).2.log =
      [.start 7 0, .getAST 7,
        .loadPlugin 7 "transformer-js" "/app/.parcelrc" "/transformers/0",
        .generate 7 "transformer-js"] ∧
    (runEvents (GenState.init GenImports.sample)
        [.call (AssetHandle.sample 7 (.ok (.val "ast")) (some (.error "generate failed"))),
          .resume 0, .resume 0, .resume 0,
          .call (AssetHandle.sample 7 (.ok (.val "ast"))
            (some (.ok { content := .text "out", map := .null }))),
          .resume 0, .resume 1]).2.promises.map Stage.rejection = [some "generate failed"] :=
  ⟨rfl, rfl, rfl, rfl⟩

/-- C8, amended: failure is memoized. If the promise that `generateResults` holds for an
asset has failed (whatever the failure: AST absent, plugin without `generate`, `generate`
failing, a store write failing), a later `generateFromAST` call on the same asset returns
that failed promise and changes nothing: no computation is started, the plugin is not
invoked again and nothing is written; resuming the failed promise changes nothing either. -/
theorem generateFromAST_failure_memoized {G : GenImports} (s : GenState G)
    (asset : AssetHandle G) (p : Nat) (message : String)
    (hentry : WeakMap.get s.generateResults asset.value.ref = some p)
    (hfailed : s.promises[p]? = some (Stage.rejected message)) :
    generateFromAST s asset = (p, s) ∧ resumePromise s p = s := by
  refine ⟨generateFromAST_hit s asset p hentry, ?_⟩
  simp only [resumePromise, hfailed, Stage.resume, List.append_nil]
  rw [list_set_same _ _ _ hfailed]

/-- Witness for C8, amended: the state in which the promise of asset 7 has failed with
'Asset has no AST', and a later call through a handle whose AST is present. -/
theorem generateFromAST_failure_memoized_witness :
    generateFromAST
        (runEvents (GenState.init GenImports.sample)
          [.call (AssetHandle.sample 7 (.ok .null) none), .resume 0]).2
        (AssetHandle.sample 7 (.ok (.val "ast"))
          (some (.ok { content := .text "out", map := .null }))) =
      (0, (runEvents (GenState.init GenImports.sample)
          [.call (AssetHandle.sample 7 (.ok .null) none), .resume 0]).2) ∧
    resumePromise
        (runEvents (GenState.init GenImports.sample)
          [.call (AssetHandle.sample 7 (.ok .null) none), .resume 0]).2 0 =
      (runEvents (GenState.init GenImports.sample)
          [.call (AssetHandle.sample 7 (.ok .null) none), .resume 0]).2 :=
  generateFromAST_failure_memoized _ _ 0 "Asset has no AST" rfl rfl

/-- C9: single-flight. Over every trace of `generateFromAST` calls and event-loop turns
from the initial state, in any interleaving (so also with a second call made while the
first promise is pending), and for every asset: each call returns a promise; a computation
is started for the asset exactly once if it is called at all; `generate`, `setStream` and
`setBlob` are each called at most once for it; all calls on it return the same promise;
that promise is the one created by the first call on it, which is the call that starts
the computation; and the calls made for the asset are exactly those of the stage its
promise has reached: while the result of `generate` is awaited, one `generate` and no
write; while the writes are awaited and once the promise is fulfilled, exactly one
`generate`, exactly one `setStream` and, exactly when the output has a map, one `setBlob`. -/
theorem generateFromAST_single_flight {G : GenImports} (evs : List (Event G)) (r : Nat) :
    (runEvents (GenState.init G) evs).1.map Prod.fst = evs.filterMap Event.callRef ∧
    (runEvents (GenState.init G) evs).2.log.countP (Effect.isStart r) =
      (if r ∈ evs.filterMap Event.callRef then 1 else 0) ∧
    (runEvents (GenState.init G) evs).2.log.countP (Effect.isGenerate r) ≤ 1 ∧
    (runEvents (GenState.init G) evs).2.log.countP (Effect.isSetStream r) ≤ 1 ∧
    (runEvents (GenState.init G) evs).2.log.countP (Effect.isSetBlob r) ≤ 1 ∧
    (∀ p q, (r, p) ∈ (runEvents (GenState.init G) evs).1 →
      (r, q) ∈ (runEvents (GenState.init G) evs).1 → p = q) ∧
    (∀ (pre post : List (Event G)) (asset : AssetHandle G),
      evs = pre ++ Event.call asset :: post → asset.value.ref = r →
      r ∉ pre.filterMap Event.callRef →
      (runEvents (GenState.init G) pre).2.log.countP (Effect.isStart r) = 0 ∧
      (runEvents (GenState.init G) (pre ++ [Event.call asset])).2.log.countP
        (Effect.isStart r) = 1 ∧
      ∀ p, (r, p) ∈ (runEvents (GenState.init G) evs).1 →
        p = (runEvents (GenState.init G) pre).2.promises.length) ∧
    (∀ p, (r, p) ∈ (runEvents (GenState.init G) evs).1 →
      ∃ st, (runEvents (GenState.init G) evs).2.promises[p]? = some st ∧
        st.accounted r (runEvents (GenState.init G) evs).2.log) ∧
    (∀ p asset result, (r, p) ∈ (runEvents (GenState.init G) evs).1 →
      (runEvents (GenState.init G) evs).2.promises[p]? =
        some (Stage.awaitGenerate asset result) →
      (runEvents (GenState.init G) evs).2.log.countP (Effect.isGenerate r) = 1 ∧
      (runEvents (GenState.init G) evs).2.log.countP (Effect.isSetStream r) = 0 ∧
      (runEvents (GenState.init G) evs).2.log.countP (Effect.isSetBlob r) = 0) ∧
    (∀ p asset out contentKey mapKey, (r, p) ∈ (runEvents (GenState.init G) evs).1 →
      (runEvents (GenState.init G) evs).2.promises[p]? =
        some (Stage.awaitWrites asset out contentKey mapKey) →
      (runEvents (GenState.init G) evs).2.log.countP (Effect.isGenerate r) = 1 ∧
      (runEvents (GenState.init G) evs).2.log.countP (Effect.isSetStream r) = 1 ∧
      (runEvents (GenState.init G) evs).2.log.countP (Effect.isSetBlob r) =
        (if out.map.isNullish then 0 else 1)) ∧
    (∀ p out, (r, p) ∈ (runEvents (GenState.init G) evs).1 →
      (runEvents (GenState.init G) evs).2.promises[p]? = some (Stage.fulfilled out) →
      (runEvents (GenState.init G) evs).2.log.countP (Effect.isGenerate r) = 1 ∧
      (runEvents (GenState.init G) evs).2.log.countP (Effect.isSetStream r) = 1 ∧
      (runEvents (GenState.init G) evs).2.log.countP (Effect.isSetBlob r) =
        (if out.map.isNullish then 0 else 1)) := by
  obtain ⟨c1, c2, c3, c4⟩ := run_counts evs r
  have hexact : ∀ p, (r, p) ∈ (runEvents (GenState.init G) evs).1 →
      ∃ st, (runEvents (GenState.init G) evs).2.promises[p]? = some st ∧
        st.accounted r (runEvents (GenState.init G) evs).2.log := fun p hp =>
    (genExact_run evs _ (genExact_init G)).2.2 r p (run_returns_recorded evs _ r p hp)
  have hstage : ∀ p st, (r, p) ∈ (runEvents (GenState.init G) evs).1 →
      (runEvents (GenState.init G) evs).2.promises[p]? = some st →
      st.accounted r (runEvents (GenState.init G) evs).2.log := by
    intro p st hp hst
    obtain ⟨st2, h2, hacc⟩ := hexact p hp
    rw [hst] at h2
    cases h2
    exact hacc
  refine ⟨run_call_refs evs _, c1, c2, c3, c4, ?_, ?_, hexact,
    fun p asset result hp hst => (hstage p _ hp hst).2,
    fun p asset out contentKey mapKey hp hst =>
      ⟨(hstage p _ hp hst).2.1, (hstage p _ hp hst).2.2.1, (hstage p _ hp hst).2.2.2.1⟩,
    fun p out hp hst => hstage p _ hp hst⟩
  · intro p q hp hq
    have h1 := run_returns_recorded evs _ r p hp
    have h2 := run_returns_recorded evs _ r q hq
    rw [h1] at h2
    exact Option.some.inj h2
  · intro pre post asset hevs href hpre
    subst href
    have d1 := (run_counts pre asset.value.ref).1
    have d2 := (run_counts (pre ++ [Event.call asset]) asset.value.ref).1
    refine ⟨by simpa [hpre] using d1, by simpa [Event.callRef] using d2, ?_⟩
    intro p hp
    have hnone : WeakMap.get (runEvents (GenState.init G) pre).2.generateResults
        asset.value.ref = none := by
      cases hx : WeakMap.get (runEvents (GenState.init G) pre).2.generateResults
          asset.value.ref with
      | none => rfl
      | some v =>
        have hsome : (WeakMap.get (runEvents (GenState.init G) pre).2.generateResults
            asset.value.ref).isSome = true := by simp [hx]
        rcases (run_has_entry pre (GenState.init G) asset.value.ref).mp hsome with h | h
        · cases h
        · exact absurd h hpre
    have hrec := generateFromAST_records (runEvents (GenState.init G) pre).2 asset
    rw [generateFromAST_miss _ asset hnone] at hrec
    have hfinal : WeakMap.get (runEvents (GenState.init G) evs).2.generateResults
        asset.value.ref = some (runEvents (GenState.init G) pre).2.promises.length := by
      rw [hevs, runEvents_append_state, runEvents_cons_state]
      apply run_keeps_entry
      simp only [step]
      rw [generateFromAST_miss _ asset hnone]
      exact hrec
    have hp2 := run_returns_recorded evs _ _ p hp
    rw [hfinal] at hp2
    exact (Option.some.inj hp2).symm

/-- Witness for C9: four calls on asset 3, three of them before its promise has settled;
the plugin returns a stream and a map. The promise they all hold is fulfilled, after exactly
one `generate`, one `setStream` and one `setBlob`. -/
theorem generateFromAST_single_flight_witness :
    (runEvents (GenState.init GenImports.sample)
      [.call (AssetHandle.sample 3 (.ok (.val "ast"))
          (some (.ok { content := .readable "stream0", map := .val "sm" }))),
        .call (AssetHandle.sample 3 (.ok (.val "ast"))
          (some (.ok { content := .readable "stream0", map := .val "sm" }))),
        .resume 0,
        .call (AssetHandle.sample 3 (.ok (.val "ast"))
          (some (.ok { content := .readable "stream0", map := .val "sm" }))),
        .resume 0, .resume 0, .resume 0,
        .call (AssetHandle.sample 3 (.ok (.val "ast"))
          (some (.ok { content := .readable "stream0", map := .val "sm" })))]).1 =
      [(3, 0), (3, 0), (3, 0), (3, 0)] ∧
    (runEvents (GenState.init GenImports.sample)
      [.call (AssetHandle.sample 3 (.ok (.val "ast"))
          (some (.ok { content := .readable "stream0", map := .val "sm" }))),
        .call (AssetHandle.sample 3 (.ok (.val "ast"))
          (some (.ok { content := .readable "stream0", map := .val "sm" }))),
        .resume 0,
        .call (AssetHandle.sample 3 (.ok (.val "ast"))
          (some (.ok { content := .readable "stream0", map := .val "sm" }))),
        .resume 0, .resume 0, .resume 0,
        .call (AssetHandle.sample 3 (.ok (.val "ast"))
          (some (.ok { content := .readable "stream0", map := .val "sm" })))]).2.log =
      [.start 3 0, .getAST 3, .loadPlugin 3 "transformer-js" "/app/.parcelrc" "/transformers/0",
        .generate 3 "transformer-js", .setStream 3 "content", .setBlob 3 "map"] ∧
    ((runEvents (GenState.init GenImports.sample)
      [.call (AssetHandle.sample 3 (.ok (.val "ast"))
          (some (.ok { content := .readable "stream0", map := .val "sm" }))),
        .call (AssetHandle.sample 3 (.ok (.val "ast"))
          (some (.ok { content := .readable "stream0", map := .val "sm" }))),
        .resume 0,
        .call (AssetHandle.sample 3 (.ok (.val "ast"))
          (some (.ok { content := .readable "stream0", map := .val "sm" }))),
        .resume 0, .resume 0, .resume 0,
        .call (AssetHandle.sample 3 (.ok (.val "ast"))
          (some (.ok { content := .readable "stream0", map := .val "sm" })))]).2.log.countP
        (Effect.isGenerate 3) = 1 ∧
      (runEvents (GenState.init GenImports.sample)
      [.call (AssetHandle.sample 3 (.ok (.val "ast"))
          (some (.ok { content := .readable "stream0", map := .val "sm" }))),
        .call (AssetHandle.sample 3 (.ok (.val "ast"))
          (some (.ok { content := .readable "stream0", map := .val "sm" }))),
        .resume 0,
        .call (AssetHandle.sample 3 (.ok (.val "ast"))
          (some (.ok { content := .readable "stream0", map := .val "sm" }))),
        .resume 0, .resume 0, .resume 0,
        .call (AssetHandle.sample 3 (.ok (.val "ast"))
          (some (.ok { content := .readable "stream0", map := .val "sm" })))]).2.log.countP
        (Effect.isSetStream 3) = 1 ∧
      (runEvents (GenState.init GenImports.sample)
      [.call (AssetHandle.sample 3 (.ok (.val "ast"))
          (some (.ok { content := .readable "stream0", map := .val "sm" }))),
        .call (AssetHandle.sample 3 (.ok (.val "ast"))
          (some (.ok { content := .readable "stream0", map := .val "sm" }))),
        .resume 0,
        .call (AssetHandle.sample 3 (.ok (.val "ast"))
          (some (.ok { content := .readable "stream0", map := .val "sm" }))),
        .resume 0, .resume 0, .resume 0,
        .call (AssetHandle.sample 3 (.ok (.val "ast"))
          (some (.ok { content := .readable "stream0", map := .val "sm" })))]).2.log.countP
        (Effect.isSetBlob 3) =
        (if (Nullable.val "sm" : Nullable String).isNullish then 0 else 1)) :=
  ⟨rfl, rfl,
    (generateFromAST_single_flight
      [.call (AssetHandle.sample 3 (.ok (.val "ast"))
          (some (.ok { content := .readable "stream0", map := .val "sm" }))),
        .call (AssetHandle.sample 3 (.ok (.val "ast"))
          (some (.ok { content := .readable "stream0", map := .val "sm" }))),
        .resume 0,
        .call (AssetHandle.sample 3 (.ok (.val "ast"))
          (some (.ok { content := .readable "stream0", map := .val "sm" }))),
        .resume 0, .resume 0, .resume 0,
        .call (AssetHandle.sample 3 (.ok (.val "ast"))
          (some (.ok { content := .readable "stream0", map := .val "sm" })))]
      3).2.2.2.2.2.2.2.2.2.2 0
      { content := .readable (GenImports.sample.getStream "content"), map := .val "sm" }
      (List.mem_cons_self _ _) rfl⟩

/-! ## Further claims on the dependency view -/

/-- A read leaves the record as it is. -/
theorem dep_read_exec {Loc : Type} (d : Dependency Loc) (op : DepOp Loc)
    (h : op.isWrite = false) : (DepOp.exec d op).2 = d := by
  cases op <;> simp [DepOp.isWrite] at h <;> rfl

/-- C11: reads never allocate. On a Dependency whose `symbols` mapping is absent, `get(e)`
returns nothing, `hasExportSymbol(e)` and `hasLocalSymbol(l)` return `false`, and
`exportSymbols()` and iteration yield no elements, for every `e` and `l`; each read (and
`isCleared`) leaves the record unchanged, so the mapping is still absent after any number
of reads. -/
theorem reads_never_allocate {Loc : Type} (d : Dependency Loc) (e l : ISymbol)
    (reads : List (DepOp Loc))
    (habsent : d.symbols.isNullish = true)
    (hreads : ∀ op ∈ reads, op.isWrite = false) :
    MutableDependencySymbols.get d e = none ∧
    MutableDependencySymbols.hasExportSymbol d e = false ∧
    MutableDependencySymbols.hasLocalSymbol d l = false ∧
    MutableDependencySymbols.exportSymbols d = [] ∧
    MutableDependencySymbols.iterate d = [] ∧
    (∀ op : DepOp Loc, op.isWrite = false → (DepOp.exec d op).2 = d) ∧
    DepOp.run d reads = d ∧
    MutableDependencySymbols.isCleared (DepOp.run d reads) = true := by
  have hrun : DepOp.run d reads = d := by
    induction reads with
    | nil => rfl
    | cons op ops ih =>
      rw [dep_run_cons, dep_read_exec d op (hreads op (List.mem_cons_self _ _))]
      exact ih (fun o ho => hreads o (List.mem_cons_of_mem _ ho))
  refine ⟨?_, ?_, ?_, ?_, ?_, fun op hop => dep_read_exec d op hop, hrun, ?_⟩
  · cases d with
    | mk symbols => cases symbols <;> simp_all [MutableDependencySymbols.get, Nullable.isNullish]
  · cases d with
    | mk symbols =>
      cases symbols <;> simp_all [MutableDependencySymbols.hasExportSymbol, Nullable.isNullish]
  · cases d with
    | mk symbols =>
      cases symbols <;> simp_all [MutableDependencySymbols.hasLocalSymbol, Nullable.isNullish]
  · cases d with
    | mk symbols =>
      cases symbols <;> simp_all [MutableDependencySymbols.exportSymbols, Nullable.isNullish]
  · cases d with
    | mk symbols =>
      cases symbols <;> simp_all [MutableDependencySymbols.iterate, Nullable.isNullish]
  · rw [hrun]
    exact habsent

/-- Witness for C11: a Dependency whose `symbols` is `null`, read six times. -/
theorem reads_never_allocate_witness :
    MutableDependencySymbols.get (⟨.null⟩ : Dependency String) "A" = none ∧
    MutableDependencySymbols.hasExportSymbol (⟨.null⟩ : Dependency String) "A" = false ∧
    MutableDependencySymbols.hasLocalSymbol (⟨.null⟩ : Dependency String) "a" = false ∧
    MutableDependencySymbols.exportSymbols (⟨.null⟩ : Dependency String) = [] ∧
    MutableDependencySymbols.iterate (⟨.null⟩ : Dependency String) = [] ∧
    (∀ op : DepOp String, op.isWrite = false →
      (DepOp.exec (⟨.null⟩ : Dependency String) op).2 = ⟨.null⟩) ∧
    DepOp.run (⟨.null⟩ : Dependency String)
      [.get "A", .hasExportSymbol "A", .hasLocalSymbol "a", .iterate, .exportSymbols,
        .isCleared] = ⟨.null⟩ ∧
    MutableDependencySymbols.isCleared
      (DepOp.run (⟨.null⟩ : Dependency String)
        [.get "A", .hasExportSymbol "A", .hasLocalSymbol "a", .iterate, .exportSymbols,
          .isCleared]) = true :=
  reads_never_allocate (⟨.null⟩ : Dependency String) "A" "a" _ rfl (by decide)

/-- The stored flag after one call, in terms of the flag before and the flag written. -/
theorem dep_weakOf_exec {Loc : Type} (d : Dependency Loc) (A : ISymbol) (op : DepOp Loc) :
    MutableDependencySymbols.weakOf (DepOp.exec d op).2 A =
      (MutableDependencySymbols.weakOf d A && (op.flagOn A).getD true) := by
  cases op with
  | set e l loc w =>
    simp only [DepOp.exec, DepOp.flagOn]
    by_cases he : e = A
    · subst he
      simp [MutableDependencySymbols.weakOf, dep_get_set_self]
    · simp [MutableDependencySymbols.weakOf, dep_get_set_other _ _ _ _ _ _ he, he]
  | ensure =>
    simp only [DepOp.exec, DepOp.flagOn, Option.getD_none, Bool.and_true]
    cases d with
    | mk symbols =>
      cases symbols <;>
        simp [MutableDependencySymbols.weakOf, MutableDependencySymbols.ensure,
          MutableDependencySymbols.get, JSMap.get]
  | get e => simp [DepOp.exec, DepOp.flagOn]
  | hasExportSymbol e => simp [DepOp.exec, DepOp.flagOn]
  | hasLocalSymbol l => simp [DepOp.exec, DepOp.flagOn]
  | iterate => simp [DepOp.exec, DepOp.flagOn]
  | exportSymbols => simp [DepOp.exec, DepOp.flagOn]
  | isCleared => simp [DepOp.exec, DepOp.flagOn]

theorem dep_weakOf_run {Loc : Type} (ops : List (DepOp Loc)) (d : Dependency Loc)
    (A : ISymbol) :
    MutableDependencySymbols.weakOf (DepOp.run d ops) A =
      (MutableDependencySymbols.weakOf d A && (ops.filterMap (DepOp.flagOn A)).all id) := by
  induction ops generalizing d with
  | nil => simp [DepOp.run]
  | cons op ops ih =>
    rw [dep_run_cons, ih, dep_weakOf_exec]
    cases hf : op.flagOn A <;> simp [List.filterMap_cons, hf, Bool.and_assoc]

/-- An entry, once stored, stays stored under one call of the view. -/
theorem dep_entry_exec {Loc : Type} (d : Dependency Loc) (A : ISymbol) (op : DepOp Loc)
    (h : (MutableDependencySymbols.get d A).isSome = true) :
    (MutableDependencySymbols.get (DepOp.exec d op).2 A).isSome = true := by
  cases op with
  | set e l loc w =>
    simp only [DepOp.exec]
    by_cases he : e = A
    · subst he
      simp [dep_get_set_self]
    · rw [dep_get_set_other _ _ _ _ _ _ he]
      exact h
  | ensure =>
    simp only [DepOp.exec]
    cases d with
    | mk symbols =>
      cases symbols <;> simp_all [MutableDependencySymbols.ensure, MutableDependencySymbols.get]
  | get e => exact h
  | hasExportSymbol e => exact h
  | hasLocalSymbol l => exact h
  | iterate => exact h
  | exportSymbols => exact h
  | isCleared => exact h

theorem dep_entry_run {Loc : Type} (ops : List (DepOp Loc)) (d : Dependency Loc) (A : ISymbol)
    (h : (MutableDependencySymbols.get d A).isSome = true ∨
      ops.filterMap (DepOp.flagOn A) ≠ []) :
    (MutableDependencySymbols.get (DepOp.run d ops) A).isSome = true := by
  induction ops generalizing d with
  | nil =>
    rcases h with h | h
    · exact h
    · exact absurd rfl h
  | cons op ops ih =>
    rw [dep_run_cons]
    apply ih
    rcases h with h | h
    · exact Or.inl (dep_entry_exec d A op h)
    · cases op with
      | set e l loc w =>
        by_cases he : e = A
        · subst he
          left
          simp [DepOp.exec, dep_get_set_self]
        · right
          simpa [List.filterMap_cons, DepOp.flagOn, he] using h
      | ensure => right; simpa [List.filterMap_cons, DepOp.flagOn] using h
      | get e => right; simpa [List.filterMap_cons, DepOp.flagOn] using h
      | hasExportSymbol e => right; simpa [List.filterMap_cons, DepOp.flagOn] using h
      | hasLocalSymbol l => right; simpa [List.filterMap_cons, DepOp.flagOn] using h
      | iterate => right; simpa [List.filterMap_cons, DepOp.flagOn] using h
      | exportSymbols => right; simpa [List.filterMap_cons, DepOp.flagOn] using h
      | isCleared => right; simpa [List.filterMap_cons, DepOp.flagOn] using h

/-- C13: let a Dependency have no entry for `A`, and let a sequence of calls on its view
contain at least one `set` on `A`, with flags `w1..wn` in order (an unsupplied flag
counting as `false`), interleaved with any other calls of the view. Afterwards `A` has an
entry, and its flag is `true` if and only if every `wi` is `true`: the stored flag is
`w1 AND ... AND wn`. -/
theorem weak_flag_is_conjunction {Loc : Type} (d : Dependency Loc) (A : ISymbol)
    (ops : List (DepOp Loc))
    (hfresh : MutableDependencySymbols.get d A = none)
    (hwritten : ops.filterMap (DepOp.flagOn A) ≠ []) :
    ∃ s, MutableDependencySymbols.get (DepOp.run d ops) A = some s ∧
      s.isWeak = (ops.filterMap (DepOp.flagOn A)).all id ∧
      (s.isWeak = true ↔ ∀ w ∈ ops.filterMap (DepOp.flagOn A), w = true) := by
  have hsome := dep_entry_run ops d A (Or.inr hwritten)
  have hweak := dep_weakOf_run ops d A
  cases hg : MutableDependencySymbols.get (DepOp.run d ops) A with
  | none => simp [hg] at hsome
  | some s =>
    simp only [MutableDependencySymbols.weakOf, hg, hfresh, Bool.true_and] at hweak
    refine ⟨s, rfl, hweak, ?_⟩
    rw [hweak, List.all_eq_true]
    constructor
    · intro h w hw
      exact h w hw
    · intro h w hw
      exact h w hw

/-- Witness for C13: `A` written weak twice, next to a strong write on `B` and a read. -/
theorem weak_flag_is_conjunction_witness :
    ∃ s, MutableDependencySymbols.get
        (DepOp.run (⟨.undefined⟩ : Dependency String)
          [.set "A" "a" .null (.val true), .set "B" "b" .null (.val false), .hasExportSymbol "A",
            .set "A" "a" .null (.val true)]) "A" = some s ∧
      s.isWeak =
        (List.filterMap (DepOp.flagOn "A")
          ([.set "A" "a" .null (.val true), .set "B" "b" .null (.val false),
            .hasExportSymbol "A", .set "A" "a" .null (.val true)] : List (DepOp String))).all id ∧
      (s.isWeak = true ↔
        ∀ w ∈ List.filterMap (DepOp.flagOn "A")
          ([.set "A" "a" .null (.val true), .set "B" "b" .null (.val false),
            .hasExportSymbol "A", .set "A" "a" .null (.val true)] : List (DepOp String)),
          w = true) :=
  weak_flag_is_conjunction (⟨.undefined⟩ : Dependency String) "A" _ rfl (by decide)

/-- C15: `ensure()` is idempotent and preserves content. On a Dependency whose `symbols` is
absent it installs an empty mapping; on one whose mapping is present, empty or populated,
it leaves the record unchanged; and `ensure()` twice gives the same record as `ensure()`
once. -/
theorem ensure_idempotent {Loc : Type} (d : Dependency Loc) :
    (MutableDependencySymbols.ensure (⟨.null⟩ : Dependency Loc) = ⟨.val []⟩) ∧
    (MutableDependencySymbols.ensure (⟨.undefined⟩ : Dependency Loc) = ⟨.val []⟩) ∧
    (∀ m : JSMap (DepSymbol Loc),
      MutableDependencySymbols.ensure (⟨.val m⟩ : Dependency Loc) = ⟨.val m⟩) ∧
    (∀ e, MutableDependencySymbols.isCleared d = false →
      MutableDependencySymbols.get (MutableDependencySymbols.ensure d) e =
        MutableDependencySymbols.get d e) ∧
    MutableDependencySymbols.ensure (MutableDependencySymbols.ensure d) =
      MutableDependencySymbols.ensure d := by
  refine ⟨rfl, rfl, fun _ => rfl, ?_, ?_⟩
  · intro e h
    cases d with
    | mk symbols =>
      cases symbols <;>
        simp_all [MutableDependencySymbols.ensure, MutableDependencySymbols.isCleared,
          Nullable.isNullish]
  · cases d with
    | mk symbols => cases symbols <;> rfl

/-! ## Claims on the asset views and on view construction -/

/-- C12: view memoization. Constructing `AssetSymbols` twice over the same record returns
the same view, in every state. `MutableAssetSymbols` and `MutableDependencySymbols` look
the record up in their `WeakMap` but never store the view in it: the map stays as it was,
and whenever the record has no entry, two constructions over it return two different
views, as the two constructions from the initial state show. -/
theorem view_memoization_only_for_AssetSymbols (r : ViewRegistry) (x : Nat) :
    (AssetSymbols.construct (AssetSymbols.construct r x).2 x).1 =
      (AssetSymbols.construct r x).1 ∧
    (MutableAssetSymbols.construct r x).2.valueToMutableAssetSymbols =
      r.valueToMutableAssetSymbols ∧
    (MutableDependencySymbols.construct r x).2.valueToMutableDependencySymbols =
      r.valueToMutableDependencySymbols ∧
    (WeakMap.get r.valueToMutableAssetSymbols x = none →
      (MutableAssetSymbols.construct (MutableAssetSymbols.construct r x).2 x).1 ≠
        (MutableAssetSymbols.construct r x).1) ∧
    (WeakMap.get r.valueToMutableDependencySymbols x = none →
      (MutableDependencySymbols.construct (MutableDependencySymbols.construct r x).2 x).1 ≠
        (MutableDependencySymbols.construct r x).1) ∧
    (MutableAssetSymbols.construct ViewRegistry.init 5).1 = 0 ∧
    (MutableAssetSymbols.construct (MutableAssetSymbols.construct ViewRegistry.init 5).2 5).1 = 1 ∧
    (MutableDependencySymbols.construct ViewRegistry.init 5).1 = 0 ∧
    (MutableDependencySymbols.construct
      (MutableDependencySymbols.construct ViewRegistry.init 5).2 5).1 = 1 := by
  refine ⟨?_, ?_, ?_, ?_, ?_, rfl, rfl, rfl, rfl⟩
  · cases h : WeakMap.get r.valueToSymbols x with
    | some v => simp [AssetSymbols.construct, h]
    | none => simp [AssetSymbols.construct, h, weakMap_get_set_self]
  · unfold MutableAssetSymbols.construct
    split <;> rfl
  · unfold MutableDependencySymbols.construct
    split <;> rfl
  · intro h
    simp [MutableAssetSymbols.construct, h]
  · intro h
    simp [MutableDependencySymbols.construct, h]

/-- C14: `MutableAssetSymbols.set` is an unconditional last-write-wins overwrite. On every
Asset Record with a non-null `symbols` mapping and for every `e`, `l`, `loc`, the call
returns, and afterwards `get(e)` is `{local: l, loc: loc}` whatever was bound to `e` before,
`hasExportSymbol(e)` is `true`, and the binding of every other export name is unchanged. -/
theorem asset_set_last_write_wins {X : Imports} (a : Asset X)
    (m : JSMap (AssetSymbol X.SourceLocation)) (e l : ISymbol) (loc : Nullable X.SourceLocation)
    (hsymbols : a.symbols = .val m) :
    ∃ a2, MutableAssetSymbols.set a e l loc = .ok a2 ∧
      MutableAssetSymbols.get a2 e = .ok (some { localName := l, loc := loc }) ∧
      MutableAssetSymbols.hasExportSymbol a2 e = .ok true ∧
      (∀ e2, e2 ≠ e → MutableAssetSymbols.get a2 e2 = MutableAssetSymbols.get a e2) ∧
      (∀ e2, e2 ≠ e →
        MutableAssetSymbols.hasExportSymbol a2 e2 = MutableAssetSymbols.hasExportSymbol a e2) := by
  refine ⟨{ a with symbols := .val (JSMap.set m e { localName := l, loc := loc }) }, ?_, ?_, ?_,
    ?_, ?_⟩
  · simp [MutableAssetSymbols.set, Asset.symbolsReceiver, hsymbols]
  · simp [MutableAssetSymbols.get, Asset.symbolsReceiver, jsMap_get_set_self]
  · simp [MutableAssetSymbols.hasExportSymbol, Asset.symbolsReceiver, JSMap.has,
      jsMap_get_set_self]
  · intro e2 he
    simp [MutableAssetSymbols.get, Asset.symbolsReceiver, hsymbols,
      jsMap_get_set_other _ _ _ _ (Ne.symm he)]
  · intro e2 he
    simp [MutableAssetSymbols.hasExportSymbol, Asset.symbolsReceiver, hsymbols, JSMap.has,
      jsMap_get_set_other _ _ _ _ (Ne.symm he)]

/-- Witness for C14: `A` is bound to `a` and `B` to `b`; `A` is set to `a2`. -/
theorem asset_set_last_write_wins_witness :
    ∃ a2,
      MutableAssetSymbols.set
        (Asset.sample (.val [("A", ⟨"a", .null⟩), ("B", ⟨"b", .null⟩)])) "A" "a2"
        (.val "a.js:1:1") = .ok a2 ∧
      MutableAssetSymbols.get a2 "A" = .ok (some { localName := "a2", loc := .val "a.js:1:1" }) ∧
      MutableAssetSymbols.hasExportSymbol a2 "A" = .ok true ∧
      (∀ e2, e2 ≠ "A" → MutableAssetSymbols.get a2 e2 =
        MutableAssetSymbols.get
          (Asset.sample (.val [("A", ⟨"a", .null⟩), ("B", ⟨"b", .null⟩)])) e2) ∧
      (∀ e2, e2 ≠ "A" → MutableAssetSymbols.hasExportSymbol a2 e2 =
        MutableAssetSymbols.hasExportSymbol
          (Asset.sample (.val [("A", ⟨"a", .null⟩), ("B", ⟨"b", .null⟩)])) e2) :=
  asset_set_last_write_wins (Asset.sample (.val [("A", ⟨"a", .null⟩), ("B", ⟨"b", .null⟩)]))
    [("A", ⟨"a", .null⟩), ("B", ⟨"b", .null⟩)] "A" "a2" (.val "a.js:1:1") rfl

/-- C20: the asset views are total only on analysed assets. With `symbols` a mapping, `get`,
`hasExportSymbol`, `hasLocalSymbol`, `exportSymbols` and iteration of `AssetSymbols` and of
`MutableAssetSymbols` return without error; with `symbols` `null` each of them, and `set`
and `clear` of `MutableAssetSymbols`, fails; the dependency view on a Dependency whose
`symbols` is `null` answers as for an empty table instead. -/
theorem asset_views_total_iff_analysed {X : Imports} (a : Asset X) (e l : ISymbol)
    (loc : Nullable X.SourceLocation) :
    (∀ m, a.symbols = .val m →
      AssetSymbols.get a e = .ok (JSMap.get m e) ∧
      AssetSymbols.hasExportSymbol a e = .ok (JSMap.has m e) ∧
      (∃ b, AssetSymbols.hasLocalSymbol a l = .ok b) ∧
      AssetSymbols.exportSymbols a = .ok (JSMap.keys m) ∧
      AssetSymbols.iterate a = .ok m ∧
      MutableAssetSymbols.get a e = .ok (JSMap.get m e) ∧
      MutableAssetSymbols.hasExportSymbol a e = .ok (JSMap.has m e) ∧
      (∃ b, MutableAssetSymbols.hasLocalSymbol a l = .ok b) ∧
      MutableAssetSymbols.exportSymbols a = .ok (JSMap.keys m) ∧
      MutableAssetSymbols.iterate a = .ok m) ∧
    (a.symbols = .null →
      (∃ err, AssetSymbols.get a e = .error err) ∧
      (∃ err, AssetSymbols.hasExportSymbol a e = .error err) ∧
      (∃ err, AssetSymbols.hasLocalSymbol a l = .error err) ∧
      (∃ err, AssetSymbols.exportSymbols a = .error err) ∧
      (∃ err, AssetSymbols.iterate a = .error err) ∧
      (∃ err, MutableAssetSymbols.get a e = .error err) ∧
      (∃ err, MutableAssetSymbols.hasExportSymbol a e = .error err) ∧
      (∃ err, MutableAssetSymbols.hasLocalSymbol a l = .error err) ∧
      (∃ err, MutableAssetSymbols.exportSymbols a = .error err) ∧
      (∃ err, MutableAssetSymbols.iterate a = .error err) ∧
      (∃ err, MutableAssetSymbols.set a e l loc = .error err) ∧
      (∃ err, MutableAssetSymbols.clear a = .error err)) ∧
    (MutableDependencySymbols.get (⟨.null⟩ : Dependency X.SourceLocation) e = none ∧
      MutableDependencySymbols.hasExportSymbol (⟨.null⟩ : Dependency X.SourceLocation) e = false ∧
      MutableDependencySymbols.hasLocalSymbol (⟨.null⟩ : Dependency X.SourceLocation) l = false ∧
      MutableDependencySymbols.exportSymbols (⟨.null⟩ : Dependency X.SourceLocation) = [] ∧
      MutableDependencySymbols.iterate (⟨.null⟩ : Dependency X.SourceLocation) = []) := by
  refine ⟨?_, ?_, rfl, rfl, rfl, rfl, rfl⟩
  · intro m hm
    simp [AssetSymbols.get, AssetSymbols.hasExportSymbol, AssetSymbols.hasLocalSymbol,
      AssetSymbols.exportSymbols, AssetSymbols.iterate, MutableAssetSymbols.get,
      MutableAssetSymbols.hasExportSymbol, MutableAssetSymbols.hasLocalSymbol,
      MutableAssetSymbols.exportSymbols, MutableAssetSymbols.iterate, Asset.symbolsReceiver, hm]
  · intro hn
    simp [AssetSymbols.get, AssetSymbols.hasExportSymbol, AssetSymbols.hasLocalSymbol,
      AssetSymbols.exportSymbols, AssetSymbols.iterate, MutableAssetSymbols.get,
      MutableAssetSymbols.hasExportSymbol, MutableAssetSymbols.hasLocalSymbol,
      MutableAssetSymbols.exportSymbols, MutableAssetSymbols.iterate, MutableAssetSymbols.set,
      MutableAssetSymbols.clear, Asset.symbolsReceiver, hn]

/-! ## Further claims on `createAsset` -/

/-- The fields of the record built by `createAsset` that are defaulted. -/
theorem createAsset_defaults (X : Imports) (o : AssetOptions X) (a : Asset X)
    (h : createAsset X o = .ok a) :
    a.symbols =
      (match o.symbols with
        | .val m => .val m
        | .null => .null
        | .undefined => .val []) ∧
    a.sideEffects = o.sideEffects.orDefault true ∧
    a.uniqueKey = strOr o.uniqueKey "" := by
  unfold createAsset at h
  split at h
  · cases h
  · simp only at h
    split at h
    · cases h
    · injection h with h
      subst h
      exact ⟨rfl, rfl, rfl⟩

/-- C18: `createAsset` keeps the null / empty distinction of `symbols` and applies the
defaults. For every valid options value (one of `id` and `idBase` supplied) it returns a
record whose `symbols` is `null` when `options.symbols` is `null`, a new empty mapping when
it is not supplied, and the supplied mapping otherwise; whose `sideEffects` is `true` when
not supplied and the supplied value otherwise; and whose `uniqueKey` is the empty string
when not supplied and the supplied string otherwise. -/
theorem createAsset_symbols_and_defaults (X : Imports) (o : AssetOptions X)
    (hvalid : o.id.isNullish = false ∨ o.idBase.isNullish = false) :
    ∃ a, createAsset X o = .ok a ∧
      (o.symbols = .null → a.symbols = .null) ∧
      (o.symbols = .undefined → a.symbols = .val []) ∧
      (∀ m, o.symbols = .val m → a.symbols = .val m) ∧
      (o.sideEffects = .undefined → a.sideEffects = true) ∧
      (∀ b, o.sideEffects = .val b → a.sideEffects = b) ∧
      (o.uniqueKey = .undefined → a.uniqueKey = "") ∧
      (∀ u, o.uniqueKey = .val u → a.uniqueKey = u) := by
  obtain ⟨a, ha⟩ := createAsset_of_either X o hvalid
  obtain ⟨h1, h2, h3⟩ := createAsset_defaults X o a ha
  refine ⟨a, ha, ?_, ?_, ?_, ?_, ?_, ?_, ?_⟩
  · intro h
    rw [h1, h]
  · intro h
    rw [h1, h]
  · intro m h
    rw [h1, h]
  · intro h
    rw [h2, h]
    rfl
  · intro b h
    rw [h2, h]
    rfl
  · intro h
    rw [h3, h]
    rfl
  · intro u h
    rw [h3, strOr_empty, h]
    rfl

/-- Witness for C18: options with `idBase` and an explicit `symbols: null`. -/
theorem createAsset_symbols_and_defaults_witness :
    ∃ a, createAsset Imports.sample
        { AssetOptions.minimal "src/a.js" "js" "browser" true with
          idBase := .val "src/a.js", symbols := .null } = .ok a ∧
      ((Nullable.null : Nullable (JSMap (AssetSymbol String))) = .null → a.symbols = .null) ∧
      ((Nullable.null : Nullable (JSMap (AssetSymbol String))) = .undefined →
        a.symbols = .val []) ∧
      (∀ m, (Nullable.null : Nullable (JSMap (AssetSymbol String))) = .val m →
        a.symbols = .val m) ∧
      ((Nullable.undefined : Nullable Bool) = .undefined → a.sideEffects = true) ∧
      (∀ b, (Nullable.undefined : Nullable Bool) = .val b → a.sideEffects = b) ∧
      ((Nullable.undefined : Nullable String) = .undefined → a.uniqueKey = "") ∧
      (∀ u, (Nullable.undefined : Nullable String) = .val u → a.uniqueKey = u) :=
  createAsset_symbols_and_defaults Imports.sample
    { AssetOptions.minimal "src/a.js" "js" "browser" true with
      idBase := .val "src/a.js", symbols := .null } (Or.inr rfl)

/-- Splitting a list at the last occurrence of an element is unique. -/
theorem list_split_last {α : Type} (c : α) (x1 x2 y1 y2 : List α)
    (h : x1 ++ c :: y1 = x2 ++ c :: y2) (h1 : c ∉ y1) (h2 : c ∉ y2) : x1 = x2 ∧ y1 = y2 := by
  induction x1 generalizing x2 with
  | nil =>
    cases x2 with
    | nil =>
      simp only [List.nil_append, List.cons.injEq, true_and] at h
      exact ⟨rfl, h⟩
    | cons d x2 =>
      simp only [List.nil_append, List.cons_append, List.cons.injEq] at h
      exact absurd (h.2 ▸ List.mem_append_right _ (List.mem_cons_self _ _)) h1
  | cons d x1 ih =>
    cases x2 with
    | nil =>
      simp only [List.nil_append, List.cons_append, List.cons.injEq] at h
      exact absurd (h.2 ▸ List.mem_append_right _ (List.mem_cons_self _ _)) h2
    | cons d2 x2 =>
      simp only [List.cons_append, List.cons.injEq] at h
      obtain ⟨hx, hy⟩ := ih x2 h.2
      exact ⟨by rw [h.1, hx], hy⟩

/-- Splitting a string at its last `:` is unique. -/
theorem str_split_last (x1 y1 x2 y2 : String) (h : x1 ++ ":" ++ y1 = x2 ++ ":" ++ y2)
    (h1 : colonFree y1) (h2 : colonFree y2) : x1 = x2 ∧ y1 = y2 := by
  have hd := congrArg String.data h
  simp only [String.data_append, List.append_assoc, List.singleton_append] at hd
  obtain ⟨hx, hy⟩ := list_split_last ':' _ _ _ _ hd h1 h2
  exact ⟨String.ext hx, String.ext hy⟩

/-- C19: the string that `createAsset` hashes,
`idBase + ':' + type + ':' + envHash + ':' + uniqueKey + ':' + pipeline` after defaulting,
determines the five components whenever `type`, `envHash`, `uniqueKey` and `pipeline`
contain no `:` (`idBase` may): two tuples under this precondition with the same string are
equal component by component. Without the precondition this fails: `idBase` 'a:b' with
`type` 'c' and `idBase` 'a' with `type` 'b:c' give the same string and the same `id`. -/
theorem hash_input_injective (X : Imports) (o1 o2 : AssetOptions X) (b1 b2 : String)
    (htype1 : colonFree o1.type) (htype2 : colonFree o2.type)
    (henv1 : colonFree (X.getEnvironmentHash o1.env))
    (henv2 : colonFree (X.getEnvironmentHash o2.env))
    (hkey1 : colonFree (o1.uniqueKey.orDefault "")) (hkey2 : colonFree (o2.uniqueKey.orDefault ""))
    (hpipe1 : colonFree (o1.pipeline.orDefault ""))
    (hpipe2 : colonFree (o2.pipeline.orDefault ""))
    (heq : createAssetHashInput X o1 b1 = createAssetHashInput X o2 b2) :
    (b1 = b2 ∧ o1.type = o2.type ∧
      X.getEnvironmentHash o1.env = X.getEnvironmentHash o2.env ∧
      o1.uniqueKey.orDefault "" = o2.uniqueKey.orDefault "" ∧
      o1.pipeline.orDefault "" = o2.pipeline.orDefault "") ∧
    (o1.id.isNullish = true → o1.idBase = .val b1 →
      ∃ a, createAsset X o1 = .ok a ∧
        a.id = X.md5FromString (createAssetHashInput X o1 b1)) ∧
    (createAssetHashInput Imports.sample
        { AssetOptions.minimal "src/a.js" "c" "browser" true with idBase := .val "a:b" } "a:b" =
      createAssetHashInput Imports.sample
        { AssetOptions.minimal "src/a.js" "b:c" "browser" true with idBase := .val "a" } "a" ∧
      ∃ a1 a2,
        createAsset Imports.sample
          { AssetOptions.minimal "src/a.js" "c" "browser" true with idBase := .val "a:b" }
          = .ok a1 ∧
        createAsset Imports.sample
          { AssetOptions.minimal "src/a.js" "b:c" "browser" true with idBase := .val "a" }
          = .ok a2 ∧
        a1.id = a2.id) := by
  refine ⟨?_, ?_, rfl, _, _, rfl, rfl, rfl⟩
  · unfold createAssetHashInput at heq
    rw [strOr_empty, strOr_empty] at heq
    obtain ⟨h4, hp⟩ := str_split_last _ _ _ _ heq hpipe1 hpipe2
    obtain ⟨h3, hu⟩ := str_split_last _ _ _ _ h4 hkey1 hkey2
    obtain ⟨h2, he⟩ := str_split_last _ _ _ _ h3 henv1 henv2
    obtain ⟨h1, ht⟩ := str_split_last _ _ _ _ h2 htype1 htype2
    exact ⟨h1, ht, he, hu, hp⟩
  · intro hid hb
    obtain ⟨a, ha, hai⟩ := createAsset_of_idBase X o1 b1 hid hb
    refine ⟨a, ha, ?_⟩
    rw [hai]
    unfold createAssetHashInput
    rw [strOr_empty]

/-- Witness for C19: the same five components, `idBase` containing a `:`, in two option
values that differ in `hash`. -/
theorem hash_input_injective_witness :
    (("a:b" : String) = "a:b" ∧ ("js" : String) = "js" ∧
      Imports.sample.getEnvironmentHash "browser" = Imports.sample.getEnvironmentHash "browser" ∧
      (Nullable.undefined : Nullable String).orDefault "" =
        (Nullable.undefined : Nullable String).orDefault "" ∧
      (Nullable.val "p" : Nullable String).orDefault "" =
        (Nullable.val "p" : Nullable String).orDefault "") ∧
    ((Nullable.undefined : Nullable String).isNullish = true →
      (Nullable.val "a:b" : Nullable String) = .val "a:b" →
      ∃ a, createAsset Imports.sample
          { AssetOptions.minimal "src/a.js" "js" "browser" true with
            idBase := .val "a:b", pipeline := .val "p" } = .ok a ∧
        a.id = Imports.sample.md5FromString
          (createAssetHashInput Imports.sample
            { AssetOptions.minimal "src/a.js" "js" "browser" true with
              idBase := .val "a:b", pipeline := .val "p" } "a:b")) ∧
    (createAssetHashInput Imports.sample
        { AssetOptions.minimal "src/a.js" "c" "browser" true with idBase := .val "a:b" } "a:b" =
      createAssetHashInput Imports.sample
        { AssetOptions.minimal "src/a.js" "b:c" "browser" true with idBase := .val "a" } "a" ∧
      ∃ a1 a2,
        createAsset Imports.sample
          { AssetOptions.minimal "src/a.js" "c" "browser" true with idBase := .val "a:b" }
          = .ok a1 ∧
        createAsset Imports.sample
          { AssetOptions.minimal "src/a.js" "b:c" "browser" true with idBase := .val "a" }
          = .ok a2 ∧
        a1.id = a2.id) :=
  hash_input_injective Imports.sample
    { AssetOptions.minimal "src/a.js" "js" "browser" true with
      idBase := .val "a:b", pipeline := .val "p" }
    { AssetOptions.minimal "src/a.js" "js" "browser" true with
      idBase := .val "a:b", pipeline := .val "p", hash := .val "0f3a" }
    "a:b" "a:b" (by decide) (by decide) (by decide) (by decide) (by decide) (by decide)
    (by decide) (by decide) rfl

/-! ## Claims on `getConfig` and on the failures of generation -/

/-- Counterexample for C16 as stated: the manifest has the value `false` under the key
`sideEffects`, and `getConfig` with that `packageKey` does not return it: it calls the
loader and returns the loader's result. -/
theorem getConfig_falsy_value_counterexample :
    PlainObject.read [("name", .string "app"), ("sideEffects", .bool false)] "sideEffects" =
      .bool false ∧
    getConfig
        (ConfigAsset.sample (.val [("name", .string "app"), ("sideEffects", .bool false)]))
        [".babelrc"] (.val { packageKey := .val "sideEffects", parse := .undefined }) =
      (.ok (.val { config := JSValue.string "from-file", files := ["/app/.babelrc"] }),
        [.getPackage, .loadConfig "/app/src/a.js" [".babelrc"] .null]) :=
  ⟨rfl, rfl⟩

/-- C16, amended: let `packageKey` be given and the manifest be loaded. If the value that
`pkg[packageKey]` reads from the manifest is truthy, `getConfig` returns
`{config: that value, files: []}` and the loader is not called. In every other case (no
manifest, or a falsy value read: `undefined` for a key that is neither own nor inherited,
`false`, `0`, `''`, `null`) it calls the loader once and returns the loader's result, `null`
when the loader finds nothing. -/
theorem getConfig_packageKey (C : ConfigImports) (asset : ConfigAsset C)
    (filePaths : List String) (o : ConfigOptions) (key : String)
    (pkg : Nullable C.PackageJSON)
    (hkey : o.packageKey = .val key) (hpkg : asset.getPackage = .ok pkg) :
    (∀ p, pkg = .val p → C.truthy (C.read p key) = true →
      getConfig asset filePaths (.val o) =
        (.ok (.val { config := C.read p key, files := [] }), [ConfigCall.getPackage])) ∧
    ((∀ p, pkg = .val p → C.truthy (C.read p key) = false) →
      getConfig asset filePaths (.val o) =
        ((match asset.loadConfig asset.filePath filePaths
              (match o.parse with
                | .val b => .val b
                | .null => .null
                | .undefined => .null) with
          | .error e => .error e
          | .ok (.val conf) => .ok (.val conf)
          | .ok .null => .ok .null
          | .ok .undefined => .ok .null),
          [ConfigCall.getPackage,
            ConfigCall.loadConfig asset.filePath filePaths
              (match o.parse with
                | .val b => .val b
                | .null => .null
                | .undefined => .null)])) := by
  constructor
  · intro p hp ht
    subst hp
    simp [getConfig, hkey, hpkg, ht]
  · intro hfalsy
    have hloader : getConfigFromLoader asset filePaths o.parse [ConfigCall.getPackage] =
        ((match asset.loadConfig asset.filePath filePaths
              (match o.parse with
                | .val b => .val b
                | .null => .null
                | .undefined => .null) with
          | .error e => .error e
          | .ok (.val conf) => .ok (.val conf)
          | .ok .null => .ok .null
          | .ok .undefined => .ok .null),
          [ConfigCall.getPackage,
            ConfigCall.loadConfig asset.filePath filePaths
              (match o.parse with
                | .val b => .val b
                | .null => .null
                | .undefined => .null)]) := by
      unfold getConfigFromLoader
      cases o.parse <;> simp only <;>
        (generalize asset.loadConfig asset.filePath filePaths _ = res
         rcases res with e | c
         · rfl
         · cases c <;> rfl)
    cases pkg with
    | undefined => simp [getConfig, hkey, hpkg, hloader]
    | null => simp [getConfig, hkey, hpkg, hloader]
    | val p =>
      have hv := hfalsy p rfl
      simp [getConfig, hkey, hpkg, hv, hloader]

/-- Witness for C16, amended: a manifest with a `browserslist` object, asked for that key. -/
theorem getConfig_packageKey_witness :
    (∀ p, (Nullable.val [("browserslist", JSValue.object "production")] :
          Nullable PlainObject) = .val p →
        JSValue.truthy (PlainObject.read p "browserslist") = true →
      getConfig (ConfigAsset.sample (.val [("browserslist", .object "production")]))
          [".browserslistrc"] (.val { packageKey := .val "browserslist", parse := .val true }) =
        (.ok (.val { config := PlainObject.read p "browserslist", files := [] }),
          [ConfigCall.getPackage])) ∧
    ((∀ p, (Nullable.val [("browserslist", JSValue.object "production")] :
          Nullable PlainObject) = .val p →
        JSValue.truthy (PlainObject.read p "browserslist") = false) →
      getConfig (ConfigAsset.sample (.val [("browserslist", .object "production")]))
          [".browserslistrc"] (.val { packageKey := .val "browserslist", parse := .val true }) =
        ((match (ConfigAsset.sample (.val [("browserslist", .object "production")])).loadConfig
              (ConfigAsset.sample (.val [("browserslist", .object "production")])).filePath
              [".browserslistrc"]
              (match (Nullable.val true : Nullable Bool) with
                | .val b => .val b
                | .null => .null
                | .undefined => .null) with
          | .error e => .error e
          | .ok (.val conf) => .ok (.val conf)
          | .ok .null => .ok .null
          | .ok .undefined => .ok .null),
          [ConfigCall.getPackage,
            ConfigCall.loadConfig
              (ConfigAsset.sample (.val [("browserslist", .object "production")])).filePath
              [".browserslistrc"]
              (match (Nullable.val true : Nullable Bool) with
                | .val b => .val b
                | .null => .null
                | .undefined => .null)])) :=
  getConfig_packageKey ConfigImports.sample
    (ConfigAsset.sample (.val [("browserslist", .object "production")]))
    [".browserslistrc"] { packageKey := .val "browserslist", parse := .val true } "browserslist"
    (.val [("browserslist", .object "production")]) rfl rfl

theorem list_set_last {α : Type} (l : List α) (x y : α) :
    (l ++ [x]).set l.length y = l ++ [y] := by
  induction l with
  | nil => rfl
  | cons hd tl ih => simp [ih]

/-- Resuming the newest promise: its stage advances and its calls are logged. -/
theorem resumePromise_last {G : GenImports} (generateResults : WeakMap Nat)
    (promises : List (Stage G)) (st : Stage G) (log : List Effect) :
    resumePromise
        { generateResults := generateResults, promises := promises ++ [st], log := log }
        promises.length =
      { generateResults := generateResults
        promises := promises ++ [st.resume.1]
        log := log ++ st.resume.2 } := by
  simp [resumePromise, list_set_last]

theorem resume_no_ast {G : GenImports} (asset : AssetHandle G)
    (h : asset.getAST = .ok .null ∨ asset.getAST = .ok .undefined) :
    (Stage.awaitAST asset).resume = (Stage.rejected "Asset has no AST", []) := by
  rcases h with h | h <;> simp [Stage.resume, Stage.afterAST, h]

theorem resume_with_ast {G : GenImports} (asset : AssetHandle G) (ast : G.AST)
    (pluginName configPath configKeyPath : String)
    (hast : asset.getAST = .ok (.val ast))
    (hplugin : asset.value.plugin = .val pluginName)
    (hpath : asset.value.configPath = .val configPath)
    (hkeyPath : asset.value.configKeyPath = .val configKeyPath) :
    (Stage.awaitAST asset).resume =
      (Stage.awaitPlugin asset ast pluginName configPath configKeyPath,
        [Effect.loadPlugin asset.value.ref pluginName configPath configKeyPath]) := by
  simp [Stage.resume, Stage.afterAST, hast, hplugin, hpath, hkeyPath, nullthrows]

theorem resume_no_generate {G : GenImports} (asset : AssetHandle G) (ast : G.AST)
    (pluginName configPath configKeyPath : String)
    (hload : asset.loadPlugin pluginName configPath configKeyPath = .ok { generate := none }) :
    (Stage.awaitPlugin asset ast pluginName configPath configKeyPath).resume =
      (Stage.rejected (pluginName ++ " does not have a generate method"), []) := by
  simp [Stage.resume, Stage.afterPlugin, hload]

/-- C17: a first `generateFromAST` call on an asset whose AST is absent returns a promise
that fails with 'Asset has no AST' as soon as it is resumed; on an asset whose AST is
present and whose resolved plugin has no `generate`, the promise fails, on its second
resumption, with '<pluginName> does not have a generate method'. In both cases the calls
made for the asset are the start, `getAST` and, in the second case, `loadPlugin`: the
plugin's `generate` is not invoked and neither `setStream` nor `setBlob` is issued, and
resuming the failed promise again does nothing. -/
theorem generate_fails_without_ast_or_generate {G : GenImports} (s : GenState G)
    (a1 a2 : AssetHandle G) (ast : G.AST) (pluginName configPath configKeyPath : String)
    (hfirst1 : WeakMap.get s.generateResults a1.value.ref = none)
    (hast1 : a1.getAST = .ok .null ∨ a1.getAST = .ok .undefined)
    (hfirst2 : WeakMap.get s.generateResults a2.value.ref = none)
    (hast2 : a2.getAST = .ok (.val ast))
    (hplugin : a2.value.plugin = .val pluginName)
    (hpath : a2.value.configPath = .val configPath)
    (hkeyPath : a2.value.configKeyPath = .val configKeyPath)
    (hload : a2.loadPlugin pluginName configPath configKeyPath = .ok { generate := none }) :
    ((generateFromAST s a1).1 = s.promises.length ∧
      (resumePromise (generateFromAST s a1).2 s.promises.length).promises =
        s.promises ++ [Stage.rejected "Asset has no AST"] ∧
      (resumePromise (generateFromAST s a1).2 s.promises.length).log =
        s.log ++ [Effect.start a1.value.ref s.promises.length, Effect.getAST a1.value.ref] ∧
      resumePromise (resumePromise (generateFromAST s a1).2 s.promises.length) s.promises.length =
        resumePromise (generateFromAST s a1).2 s.promises.length) ∧
    ((generateFromAST s a2).1 = s.promises.length ∧
      (resumePromise (resumePromise (generateFromAST s a2).2 s.promises.length)
          s.promises.length).promises =
        s.promises ++ [Stage.rejected (pluginName ++ " does not have a generate method")] ∧
      (resumePromise (resumePromise (generateFromAST s a2).2 s.promises.length)
          s.promises.length).log =
        s.log ++ [Effect.start a2.value.ref s.promises.length, Effect.getAST a2.value.ref,
          Effect.loadPlugin a2.value.ref pluginName configPath configKeyPath] ∧
      resumePromise
          (resumePromise (resumePromise (generateFromAST s a2).2 s.promises.length)
            s.promises.length) s.promises.length =
        resumePromise (resumePromise (generateFromAST s a2).2 s.promises.length)
          s.promises.length) := by
  have r1 := resume_no_ast a1 hast1
  have r2 := resume_with_ast a2 ast pluginName configPath configKeyPath hast2 hplugin hpath
    hkeyPath
  have r3 := resume_no_generate a2 ast pluginName configPath configKeyPath hload
  have r4 : ∀ m : String, (Stage.rejected m : Stage G).resume = (Stage.rejected m, []) :=
    fun _ => rfl
  constructor
  · rw [generateFromAST_miss s a1 hfirst1]
    simp only [resumePromise_last, r1, r4, List.append_nil, List.append_assoc,
      List.cons_append, List.nil_append, and_self]
  · rw [generateFromAST_miss s a2 hfirst2]
    simp only [resumePromise_last, r2, r3, r4, List.append_nil, List.append_assoc,
      List.cons_append, List.nil_append, and_self]

/-- Witness for C17: from the initial state, asset 7 has no AST and asset 8 has an AST and a
plugin without `generate`. -/
theorem generate_fails_without_ast_or_generate_witness :
    ((generateFromAST (GenState.init GenImports.sample)
        (AssetHandle.sample 7 (.ok .null) none)).1 = 0 ∧
      (resumePromise (generateFromAST (GenState.init GenImports.sample)
        (AssetHandle.sample 7 (.ok .null) none)).2 0).promises.map Stage.rejection =
        [some "Asset has no AST"] ∧
      (resumePromise (generateFromAST (GenState.init GenImports.sample)
        (AssetHandle.sample 7 (.ok .null) none)).2 0).log = [.start 7 0, .getAST 7]) ∧
    ((generateFromAST (GenState.init GenImports.sample)
        (AssetHandle.sample 8 (.ok (.val "ast")) none)).1 = 0 ∧
      (resumePromise (resumePromise (generateFromAST (GenState.init GenImports.sample)
        (AssetHandle.sample 8 (.ok (.val "ast")) none)).2 0) 0).promises.map Stage.rejection =
        [some "transformer-js does not have a generate method"] ∧
      (resumePromise (resumePromise (generateFromAST (GenState.init GenImports.sample)
        (AssetHandle.sample 8 (.ok (.val "ast")) none)).2 0) 0).log =
        [.start 8 0, .getAST 8,
          .loadPlugin 8 "transformer-js" "/app/.parcelrc" "/transformers/0"]) := by
  have h := generate_fails_without_ast_or_generate (GenState.init GenImports.sample)
    (AssetHandle.sample 7 (.ok .null) none) (AssetHandle.sample 8 (.ok (.val "ast")) none)
    "ast" "transformer-js" "/app/.parcelrc" "/transformers/0" rfl (Or.inl rfl) rfl rfl rfl rfl
    rfl rfl
  obtain ⟨⟨h1, h2, h3, _⟩, ⟨h4, h5, h6, _⟩⟩ := h
  exact ⟨⟨h1, congrArg (List.map Stage.rejection) h2, h3⟩,
    ⟨h4, congrArg (List.map Stage.rejection) h5, h6⟩⟩

end Parcel
